import Mathlib

/-!
Verification of the secret-reference resolution pipeline of openclaw
(`src/unnamed/part_000`: `resolveSecretRefValue`, `decryptSopsFile`,
`resolveGoogleChatServiceAccount`, `resolveConfigSecretRefs`,
`resolveAuthStoreSecretRefs`, `prepareSecretsRuntimeSnapshot`,
`activateSecretsRuntimeSnapshot`, `getActiveSecretsRuntimeSnapshot`,
`clearSecretsRuntimeSnapshot`).

Modelling choices:
- JSON-like configuration data is modelled by `AVal`.  Every composite value
  (object or array) carries an `addr : Nat` modelling JavaScript object
  identity; `stripVal` erases addresses (so `stripVal a = stripVal b` is
  deep-equality) and `cloneVal` is `structuredClone`: it relabels every
  composite node with a fresh address drawn from an allocation counter.
- Asynchrony in the source is sequentialised: the spec states the execution
  is single-threaded and cooperative, and every resolution step awaits its
  callees, so each function is a state-passing function over `RState`, which
  holds the single-flight cache slot (`fileSecretsPromise`: the settled
  result of the at-most-one decrypt operation), a ghost counter
  `decryptCount` of invocations of the external decrypt binary, and the
  allocation counter `nextAddr`.
- Throw sites are mapped to the error kinds named by the documentation
  (`SecretError`); `Except` models exception propagation.
- External collaborators (the sops decrypt facility, `resolveUserPath`,
  agent-directory resolution, the auth-profile store loader, the process
  environment) are parameters, bundled in `ExtWorld`.
-/

/-- JavaScript `String.prototype.trim` (`ref.id.trim()`, `value.trim()` in the
source): strip leading and trailing whitespace, modelled over the character
list so that it evaluates by `decide`. -/
def jsTrim (s : String) : String :=
  ⟨((s.data.dropWhile Char.isWhitespace).reverse.dropWhile Char.isWhitespace).reverse⟩

/-- Length of a string via its character list (evaluates by `decide`). -/
def strLen (s : String) : Nat := s.data.length

/-- Split a character list on a separator character (used for pointer-style
ids). -/
def splitOnCharList (c : Char) (l : List Char) : List (List Char) :=
  match l with
  | [] => [[]]
  | x :: xs =>
    let rest := splitOnCharList c xs
    if x = c then [] :: rest
    else
      match rest with
      | [] => [[x]]
      | r :: rs => (x :: r) :: rs

/-- Segments of a JSON-pointer-style id: split on the slash character and drop
empty segments. -/
def pointerSegments (s : String) : List String :=
  ((splitOnCharList '/' s.data).map (fun l => (⟨l⟩ : String))).filter (fun t => t ≠ "")

/-- JSON-compatible values with explicit object identity.  `vobj`/`varr` carry
an address modelling the identity of the underlying mutable JavaScript
object/array; primitives are immutable and carry none. -/
inductive AVal where
  | vnull
  | vbool (b : Bool)
  | vnum (n : Int)
  | vstr (s : String)
  | vobj (addr : Nat) (fields : List (String × AVal))
  | varr (addr : Nat) (elems : List AVal)

/-- Property lookup in an object's field list (first occurrence wins; JS
objects have unique keys). -/
def lookupField : List (String × AVal) → String → Option AVal
  | [], _ => none
  | (k, v) :: rest, key => if k = key then some v else lookupField rest key

/-- JS property read `target.key`: `some` on objects holding the property,
`none` (undefined) otherwise. -/
def getField (v : AVal) (key : String) : Option AVal :=
  match v with
  | .vobj _ fs => lookupField fs key
  | _ => none

/-- Property write on a field list: overwrite the first occurrence, append if
absent (JS property assignment). -/
def setFields : List (String × AVal) → String → AVal → List (String × AVal)
  | [], key, v => [(key, v)]
  | (k, w) :: rest, key, v =>
    if k = key then (k, v) :: rest else (k, w) :: setFields rest key v

/-- JS property assignment `target.key = v`.  The identity (address) of the
mutated object is preserved.  Assignment on a primitive is a no-op (it is
never reached on one in the translated code paths). -/
def setField (o : AVal) (key : String) (v : AVal) : AVal :=
  match o with
  | .vobj a fs => .vobj a (setFields fs key v)
  | other => other

/-- JS truthiness of a value (the walk tests `if (googleChat)`). -/
def truthy : AVal → Bool
  | .vnull => false
  | .vbool b => b
  | .vnum n => decide (n ≠ 0)
  | .vstr s => decide (s ≠ "")
  | .vobj _ _ => true
  | .varr _ _ => true

/-- Source `isRecord`: a non-null object that is not an array. -/
def isRecordV : AVal → Bool
  | .vobj _ _ => true
  | _ => false

/-- Source `isNonEmptyString` applied to a value: a string whose trim has
positive length. -/
def isNonEmptyStringV : AVal → Bool
  | .vstr s => decide (0 < strLen (jsTrim s))
  | _ => false

/-- Source `isNonEmptyString` applied to an optional string (an env variable
or a plaintext `key`/`token` field, absent = undefined). -/
def isNonEmptyStringO : Option String → Bool
  | some s => decide (0 < strLen (jsTrim s))
  | none => false

/-- The string content of a value passing `isNonEmptyString`, if any. -/
def asNonEmptyString : AVal → Option String
  | .vstr s => if 0 < strLen (jsTrim s) then some s else none
  | _ => none

mutual

/-- Erase all addresses (deep-equality up to object identity). -/
def stripVal : AVal → AVal
  | .vnull => .vnull
  | .vbool b => .vbool b
  | .vnum n => .vnum n
  | .vstr s => .vstr s
  | .vobj _ fs => .vobj 0 (stripFields fs)
  | .varr _ es => .varr 0 (stripElems es)

def stripFields : List (String × AVal) → List (String × AVal)
  | [] => []
  | (k, v) :: rest => (k, stripVal v) :: stripFields rest

def stripElems : List AVal → List AVal
  | [] => []
  | v :: rest => stripVal v :: stripElems rest

end

mutual

/-- Addresses of all composite nodes of a value: the mutable sub-objects. -/
def valAddrs : AVal → List Nat
  | .vnull => []
  | .vbool _ => []
  | .vnum _ => []
  | .vstr _ => []
  | .vobj a fs => a :: fieldsAddrs fs
  | .varr a es => a :: elemsAddrs es

def fieldsAddrs : List (String × AVal) → List Nat
  | [] => []
  | (_, v) :: rest => valAddrs v ++ fieldsAddrs rest

def elemsAddrs : List AVal → List Nat
  | [] => []
  | v :: rest => valAddrs v ++ elemsAddrs rest

end

mutual

/-- `structuredClone` on a value: deep copy, every composite node gets a fresh
address from the allocation counter. -/
def cloneVal : AVal → Nat → AVal × Nat
  | .vnull, n => (.vnull, n)
  | .vbool b, n => (.vbool b, n)
  | .vnum m, n => (.vnum m, n)
  | .vstr s, n => (.vstr s, n)
  | .vobj _ fs, n =>
    let p := cloneFields fs (n + 1)
    (.vobj n p.1, p.2)
  | .varr _ es, n =>
    let p := cloneElems es (n + 1)
    (.varr n p.1, p.2)

def cloneFields : List (String × AVal) → Nat → List (String × AVal) × Nat
  | [], n => ([], n)
  | (k, v) :: rest, n =>
    let p := cloneVal v n
    let q := cloneFields rest p.2
    ((k, p.1) :: q.1, q.2)

def cloneElems : List AVal → Nat → List AVal × Nat
  | [], n => ([], n)
  | v :: rest, n =>
    let p := cloneVal v n
    let q := cloneElems rest p.2
    (p.1 :: q.1, q.2)

end

mutual

theorem stripVal_cloneVal : ∀ (v : AVal) (n : Nat), stripVal (cloneVal v n).1 = stripVal v
  | .vnull, _ => rfl
  | .vbool _, _ => rfl
  | .vnum _, _ => rfl
  | .vstr _, _ => rfl
  | .vobj _ fs, n => by simp [cloneVal, stripVal, stripFields_cloneFields fs (n + 1)]
  | .varr _ es, n => by simp [cloneVal, stripVal, stripElems_cloneElems es (n + 1)]

theorem stripFields_cloneFields :
    ∀ (fs : List (String × AVal)) (n : Nat), stripFields (cloneFields fs n).1 = stripFields fs
  | [], _ => rfl
  | (k, v) :: rest, n => by
    simp [cloneFields, stripFields, stripVal_cloneVal v n,
      stripFields_cloneFields rest (cloneVal v n).2]

theorem stripElems_cloneElems :
    ∀ (es : List AVal) (n : Nat), stripElems (cloneElems es n).1 = stripElems es
  | [], _ => rfl
  | v :: rest, n => by
    simp [cloneElems, stripElems, stripVal_cloneVal v n,
      stripElems_cloneElems rest (cloneVal v n).2]

end

mutual

theorem cloneVal_counter_le : ∀ (v : AVal) (n : Nat), n ≤ (cloneVal v n).2
  | .vnull, _ => Nat.le_refl _
  | .vbool _, _ => Nat.le_refl _
  | .vnum _, _ => Nat.le_refl _
  | .vstr _, _ => Nat.le_refl _
  | .vobj _ fs, n => by
    simpa [cloneVal] using Nat.le_trans (Nat.le_succ n) (cloneFields_counter_le fs (n + 1))
  | .varr _ es, n => by
    simpa [cloneVal] using Nat.le_trans (Nat.le_succ n) (cloneElems_counter_le es (n + 1))

theorem cloneFields_counter_le :
    ∀ (fs : List (String × AVal)) (n : Nat), n ≤ (cloneFields fs n).2
  | [], _ => Nat.le_refl _
  | (_, v) :: rest, n => by
    simpa [cloneFields] using
      Nat.le_trans (cloneVal_counter_le v n) (cloneFields_counter_le rest (cloneVal v n).2)

theorem cloneElems_counter_le : ∀ (es : List AVal) (n : Nat), n ≤ (cloneElems es n).2
  | [], _ => Nat.le_refl _
  | v :: rest, n => by
    simpa [cloneElems] using
      Nat.le_trans (cloneVal_counter_le v n) (cloneElems_counter_le rest (cloneVal v n).2)

end

mutual

theorem cloneVal_addrs_bound :
    ∀ (v : AVal) (n : Nat) (a : Nat), a ∈ valAddrs (cloneVal v n).1 → n ≤ a ∧ a < (cloneVal v n).2
  | .vnull, _, _ => by intro ha; simp [cloneVal, valAddrs] at ha
  | .vbool _, _, _ => by intro ha; simp [cloneVal, valAddrs] at ha
  | .vnum _, _, _ => by intro ha; simp [cloneVal, valAddrs] at ha
  | .vstr _, _, _ => by intro ha; simp [cloneVal, valAddrs] at ha
  | .vobj _ fs, n, a => by
    intro ha
    simp only [cloneVal, valAddrs, List.mem_cons] at ha ⊢
    have hc := cloneFields_counter_le fs (n + 1)
    rcases ha with ha | ha
    · omega
    · have h := cloneFields_addrs_bound fs (n + 1) a ha
      omega
  | .varr _ es, n, a => by
    intro ha
    simp only [cloneVal, valAddrs, List.mem_cons] at ha ⊢
    have hc := cloneElems_counter_le es (n + 1)
    rcases ha with ha | ha
    · omega
    · have h := cloneElems_addrs_bound es (n + 1) a ha
      omega

theorem cloneFields_addrs_bound :
    ∀ (fs : List (String × AVal)) (n : Nat) (a : Nat),
      a ∈ fieldsAddrs (cloneFields fs n).1 → n ≤ a ∧ a < (cloneFields fs n).2
  | [], _, _ => by intro ha; simp [cloneFields, fieldsAddrs] at ha
  | (_, v) :: rest, n, a => by
    intro ha
    simp only [cloneFields, fieldsAddrs, List.mem_append] at ha ⊢
    rcases ha with ha | ha
    · have h := cloneVal_addrs_bound v n a ha
      exact ⟨h.1, Nat.lt_of_lt_of_le h.2 (cloneFields_counter_le rest (cloneVal v n).2)⟩
    · have h := cloneFields_addrs_bound rest (cloneVal v n).2 a ha
      exact ⟨Nat.le_trans (cloneVal_counter_le v n) h.1, h.2⟩

theorem cloneElems_addrs_bound :
    ∀ (es : List AVal) (n : Nat) (a : Nat),
      a ∈ elemsAddrs (cloneElems es n).1 → n ≤ a ∧ a < (cloneElems es n).2
  | [], _, _ => by intro ha; simp [cloneElems, elemsAddrs] at ha
  | v :: rest, n, a => by
    intro ha
    simp only [cloneElems, elemsAddrs, List.mem_append] at ha ⊢
    rcases ha with ha | ha
    · have h := cloneVal_addrs_bound v n a ha
      exact ⟨h.1, Nat.lt_of_lt_of_le h.2 (cloneElems_counter_le rest (cloneVal v n).2)⟩
    · have h := cloneElems_addrs_bound rest (cloneVal v n).2 a ha
      exact ⟨Nat.le_trans (cloneVal_counter_le v n) h.1, h.2⟩

end

/-- A secret reference as consumed by `resolveSecretRefValue`.  The `source`
is kept as an arbitrary string because the function's final branch handles
unsupported source values. -/
structure SecretRef where
  source : String
  id : String

/-- Modelled from the spec: `isSecretRef` (config/types.secrets, not under
src/).  A secret reference is a typed placeholder object
`(source : env or file, id : string)` embedded as a discriminated value. -/
def isSecretRefV (v : AVal) : Bool :=
  match v with
  | .vobj _ fs =>
    match lookupField fs "source", lookupField fs "id" with
    | some (.vstr src), some (.vstr _) => src = "env" || src = "file"
    | _, _ => false
  | _ => false

/-- The secret reference encoded by a value recognised by `isSecretRefV`. -/
def asSecretRef (v : AVal) : Option SecretRef :=
  match v with
  | .vobj _ fs =>
    match lookupField fs "source", lookupField fs "id" with
    | some (.vstr src), some (.vstr i) =>
      if src = "env" || src = "file" then some ⟨src, i⟩ else none
    | _, _ => none
  | _ => none

/-- The reference held by an optionally-present field (a JS expression such as
`isSecretRef(target.serviceAccountRef) ? target.serviceAccountRef : null`). -/
def refOf (o : Option AVal) : Option SecretRef := o.bind asSecretRef

/-- Error kinds of the resolution pipeline, one per throw site, named as in
the documentation (each `throw new Error(...)` of the source is classified
by the message it carries). -/
inductive SecretError where
  | InvalidReference
  | MissingSecret (id : String)
  | UnsupportedSource (source : String)
  | NotConfigured
  | UnsupportedSourceType (t : String)
  | InvalidResolvedValue (path : String)
  | EmptyResolvedCredential (profileId : String)
  | DecryptFailed (msg : String)
deriving DecidableEq

/-- Modelled from the spec: `readJsonPointer` (secrets/json-pointer, not under
src/), called with `onMissing: "throw"`: a JSON-pointer-style lookup of the
id path into the decrypted payload; fails with `MissingSecret` if the pointer
does not resolve. -/
def readJsonPointer (payload : AVal) (ptr : String) : Except SecretError AVal :=
  go payload (pointerSegments ptr)
where
  go : AVal → List String → Except SecretError AVal
    | v, [] => .ok v
    | .vobj _ fs, s :: rest =>
      match lookupField fs s with
      | some v => go v rest
      | none => .error (.MissingSecret ptr)
    | _, _ :: _ => .error (.MissingSecret ptr)

/-- The file secret source entry `secrets.sources.file`
(shape `(type, path, timeoutMs?)`). -/
structure FileSourceLike where
  addr : Nat
  type : String
  path : String
  timeoutMs : Option Int

/-- The `secrets.sources` object. -/
structure SourcesSection where
  addr : Nat
  file : Option FileSourceLike

/-- The `secrets` section of the configuration. -/
structure SecretsSection where
  addr : Nat
  sources : Option SourcesSection

/-- A named record of JS objects (`models.providers`: a record of provider
entries), with the record object's own identity. -/
structure NamedVals where
  addr : Nat
  entries : List (String × AVal)

/-- The `models` section (`models?.providers`). -/
structure ModelsSection where
  addr : Nat
  providers : Option NamedVals

/-- The `channels` section (`channels?.googlechat`, an untyped value cast to
`GoogleChatAccountLike` by the walker). -/
structure ChannelsSection where
  addr : Nat
  googlechat : Option AVal

/-- `OpenClawConfig`, restricted to the sections the secrets pipeline reads or
writes; `extra` carries the remaining top-level sections, which the walk
never touches. -/
structure OpenClawConfig where
  addr : Nat
  models : Option ModelsSection
  channels : Option ChannelsSection
  secrets : Option SecretsSection
  extra : List (String × AVal)

def stripNamedVals (nv : NamedVals) : NamedVals :=
  ⟨0, stripFields nv.entries⟩

def stripFileSource (fs : FileSourceLike) : FileSourceLike :=
  { fs with addr := 0 }

def stripSources (s : SourcesSection) : SourcesSection :=
  ⟨0, s.file.map stripFileSource⟩

def stripSecrets (s : SecretsSection) : SecretsSection :=
  ⟨0, s.sources.map stripSources⟩

def stripModels (m : ModelsSection) : ModelsSection :=
  ⟨0, m.providers.map stripNamedVals⟩

def stripChannels (c : ChannelsSection) : ChannelsSection :=
  ⟨0, c.googlechat.map stripVal⟩

/-- Address erasure on a configuration: two configurations with equal
`stripConfig` are deep-equal in the JS sense. -/
def stripConfig (c : OpenClawConfig) : OpenClawConfig :=
  ⟨0, c.models.map stripModels, c.channels.map stripChannels,
    c.secrets.map stripSecrets, stripFields c.extra⟩

def namedValsAddrs (nv : NamedVals) : List Nat := nv.addr :: fieldsAddrs nv.entries

def fileSourceAddrs (fs : FileSourceLike) : List Nat := [fs.addr]

def sourcesAddrs (s : SourcesSection) : List Nat :=
  s.addr :: (s.file.map fileSourceAddrs).getD []

def secretsAddrs (s : SecretsSection) : List Nat :=
  s.addr :: (s.sources.map sourcesAddrs).getD []

def modelsAddrs (m : ModelsSection) : List Nat :=
  m.addr :: (m.providers.map namedValsAddrs).getD []

def channelsAddrs (c : ChannelsSection) : List Nat :=
  c.addr :: (c.googlechat.map valAddrs).getD []

/-- Addresses of every mutable sub-object of a configuration. -/
def configAddrs (c : OpenClawConfig) : List Nat :=
  c.addr :: ((c.models.map modelsAddrs).getD [] ++ (c.channels.map channelsAddrs).getD []
    ++ (c.secrets.map secretsAddrs).getD [] ++ fieldsAddrs c.extra)

def cloneNamedVals (nv : NamedVals) (n : Nat) : NamedVals × Nat :=
  let p := cloneFields nv.entries (n + 1)
  (⟨n, p.1⟩, p.2)

def cloneFileSource (fs : FileSourceLike) (n : Nat) : FileSourceLike × Nat :=
  ({ fs with addr := n }, n + 1)

def cloneOptWith {α : Type} (f : α → Nat → α × Nat) : Option α → Nat → Option α × Nat
  | none, n => (none, n)
  | some x, n => let p := f x n; (some p.1, p.2)

def cloneSources (s : SourcesSection) (n : Nat) : SourcesSection × Nat :=
  let p := cloneOptWith cloneFileSource s.file (n + 1)
  (⟨n, p.1⟩, p.2)

def cloneSecrets (s : SecretsSection) (n : Nat) : SecretsSection × Nat :=
  let p := cloneOptWith cloneSources s.sources (n + 1)
  (⟨n, p.1⟩, p.2)

def cloneModels (m : ModelsSection) (n : Nat) : ModelsSection × Nat :=
  let p := cloneOptWith cloneNamedVals m.providers (n + 1)
  (⟨n, p.1⟩, p.2)

def cloneChannels (c : ChannelsSection) (n : Nat) : ChannelsSection × Nat :=
  let p := cloneOptWith cloneVal c.googlechat (n + 1)
  (⟨n, p.1⟩, p.2)

/-- `structuredClone` on a configuration. -/
def cloneConfig (c : OpenClawConfig) (n : Nat) : OpenClawConfig × Nat :=
  let pm := cloneOptWith cloneModels c.models (n + 1)
  let pc := cloneOptWith cloneChannels c.channels pm.2
  let ps := cloneOptWith cloneSecrets c.secrets pc.2
  let pe := cloneFields c.extra ps.2
  (⟨n, pm.1, pc.1, ps.1, pe.1⟩, pe.2)

/-- An auth-profile credential (`AuthProfileCredential`): the walk
distinguishes the `api_key` and `token` variants and leaves any other variant
untouched.  `rest` carries the remaining properties of the profile object
(for example `provider`), which the walk never modifies. -/
inductive AuthProfile where
  | apiKeyProf (addr : Nat) (key : Option String) (keyRef : Option AVal)
      (rest : List (String × AVal))
  | tokenProf (addr : Nat) (token : Option String) (tokenRef : Option AVal)
      (rest : List (String × AVal))
  | otherProf (addr : Nat) (ptype : String) (rest : List (String × AVal))

def stripProfile : AuthProfile → AuthProfile
  | .apiKeyProf _ key keyRef rest =>
    .apiKeyProf 0 key (keyRef.map stripVal) (stripFields rest)
  | .tokenProf _ token tokenRef rest =>
    .tokenProf 0 token (tokenRef.map stripVal) (stripFields rest)
  | .otherProf _ t rest => .otherProf 0 t (stripFields rest)

def profileAddrs : AuthProfile → List Nat
  | .apiKeyProf a _ keyRef rest => a :: ((keyRef.map valAddrs).getD [] ++ fieldsAddrs rest)
  | .tokenProf a _ tokenRef rest => a :: ((tokenRef.map valAddrs).getD [] ++ fieldsAddrs rest)
  | .otherProf a _ rest => a :: fieldsAddrs rest

def cloneProfile : AuthProfile → Nat → AuthProfile × Nat
  | .apiKeyProf _ key keyRef rest, n =>
    let p := cloneOptWith cloneVal keyRef (n + 1)
    let q := cloneFields rest p.2
    (.apiKeyProf n key p.1 q.1, q.2)
  | .tokenProf _ token tokenRef rest, n =>
    let p := cloneOptWith cloneVal tokenRef (n + 1)
    let q := cloneFields rest p.2
    (.tokenProf n token p.1 q.1, q.2)
  | .otherProf _ t rest, n =>
    let q := cloneFields rest (n + 1)
    (.otherProf n t q.1, q.2)

/-- An `AuthProfileStore`: `version` plus the `profiles` record (whose own
object identity is `profilesAddr`). -/
structure AuthProfileStore where
  addr : Nat
  version : Int
  profilesAddr : Nat
  profiles : List (String × AuthProfile)

def stripProfilesList : List (String × AuthProfile) → List (String × AuthProfile)
  | [] => []
  | (k, p) :: rest => (k, stripProfile p) :: stripProfilesList rest

def profilesListAddrs : List (String × AuthProfile) → List Nat
  | [] => []
  | (_, p) :: rest => profileAddrs p ++ profilesListAddrs rest

def cloneProfilesList : List (String × AuthProfile) → Nat → List (String × AuthProfile) × Nat
  | [], n => ([], n)
  | (k, p) :: rest, n =>
    let q := cloneProfile p n
    let r := cloneProfilesList rest q.2
    ((k, q.1) :: r.1, r.2)

def stripStore (s : AuthProfileStore) : AuthProfileStore :=
  ⟨0, s.version, 0, stripProfilesList s.profiles⟩

def storeAddrs (s : AuthProfileStore) : List Nat :=
  s.addr :: s.profilesAddr :: profilesListAddrs s.profiles

/-- `structuredClone` on an auth-profile store. -/
def cloneStore (s : AuthProfileStore) (n : Nat) : AuthProfileStore × Nat :=
  let p := cloneProfilesList s.profiles (n + 2)
  (⟨n, s.version, n + 1, p.1⟩, p.2)

/-- External collaborators of the pipeline (spec section 6), injected as
parameters: the sops decrypt facility (`decryptSopsJsonFile` with its default
timeout constant), `resolveUserPath`, agent-directory resolution
(`resolveOpenClawAgentDir`, `listAgentIds`, `resolveAgentDir`), the standard
auth-profile store loader, and the process environment. -/
structure ExtWorld where
  sopsDecrypt : String → Int → Except SecretError AVal
  defaultSopsTimeoutMs : Int
  resolveUserPath : String → String
  openClawAgentDir : String
  listAgentIds : OpenClawConfig → List String
  resolveAgentDir : OpenClawConfig → String → String
  loadAuthProfileStoreForRuntime : String → AuthProfileStore
  processEnv : String → Option String

/-- The read-only part of the source's `ResolverContext` (its mutable
`fileSecretsPromise` slot lives in `RState`). -/
structure ResolverContext where
  config : OpenClawConfig
  env : String → Option String

/-- Mutable resolution state: the single-flight cache slot (the settled
result of the at-most-one decrypt of the file source), the ghost count of
external decrypt invocations, and the allocation counter. -/
structure RState where
  fileSecretsPromise : Option (Except SecretError AVal)
  decryptCount : Nat
  nextAddr : Nat

/-- The optional chain `config.secrets?.sources?.file` of `decryptSopsFile`. -/
def configFileSource (config : OpenClawConfig) : Option FileSourceLike :=
  (config.secrets.bind (fun s => s.sources)).bind (fun s => s.file)

/-- `decryptSopsFile` (source lines 84-106): requires `secrets.sources.file`
to be configured (`NotConfigured` otherwise) and of type `"sops"`
(`UnsupportedSourceType` otherwise); only then is the external decrypt
facility invoked, on the resolved path with the clamped timeout
(`timeoutMs : Option Int` models `Math.floor` of a finite number, `none` an
absent or non-finite one). -/
def decryptSopsFile (config : OpenClawConfig) (ext : ExtWorld) (st : RState) :
    Except SecretError AVal × RState :=
  match configFileSource config with
  | none => (.error .NotConfigured, st)
  | some fileSource =>
    if fileSource.type = "sops" then
      let resolvedPath := ext.resolveUserPath fileSource.path
      let timeoutMs :=
        match fileSource.timeoutMs with
        | some t => max 1 t
        | none => ext.defaultSopsTimeoutMs
      (ext.sopsDecrypt resolvedPath timeoutMs,
        { st with decryptCount := st.decryptCount + 1 })
    else (.error (.UnsupportedSourceType fileSource.type), st)

/-- `resolveSecretRefValue` (source lines 108-129).  The trimmed id is checked
first; `env` reads the environment (the `isNonEmptyString(envValue)` guard is
unfolded over the present/absent cases); `file` installs the decrypt result
in the cache slot on first use (`context.fileSecretsPromise ??= ...`) and
performs the JSON-pointer lookup on the cached payload; any other source
fails with `UnsupportedSource`. -/
def resolveSecretRefValue (ref : SecretRef) (ctx : ResolverContext) (ext : ExtWorld)
    (st : RState) : Except SecretError AVal × RState :=
  let id := jsTrim ref.id
  if id = "" then (.error .InvalidReference, st)
  else if ref.source = "env" then
    match ctx.env id with
    | some s =>
      if 0 < strLen (jsTrim s) then (.ok (.vstr s), st)
      else (.error (.MissingSecret id), st)
    | none => (.error (.MissingSecret id), st)
  else if ref.source = "file" then
    match st.fileSecretsPromise with
    | some cached => (cached.bind (fun payload => readJsonPointer payload id), st)
    | none =>
      let p := decryptSopsFile ctx.config ext st
      (p.1.bind (fun payload => readJsonPointer payload id),
        { p.2 with fileSecretsPromise := some p.1 })
  else (.error (.UnsupportedSource ref.source), st)

/-- A non-fatal resolver warning (`SecretResolverWarning`); `addr` is the
identity of the warning object. -/
structure SecretResolverWarning where
  addr : Nat
  code : String
  path : String
  message : String

def stripWarning (w : SecretResolverWarning) : SecretResolverWarning :=
  { w with addr := 0 }

/-- `resolveGoogleChatServiceAccount` (source lines 131-151): the explicit
`serviceAccountRef` takes precedence over an inline reference in
`serviceAccount`; the override warning fires when an explicit ref is present
and `serviceAccount` is defined and not itself a reference; the primary field
is then overwritten with the resolved value. -/
def resolveGoogleChatServiceAccount (target : AVal) (path : String) (ctx : ResolverContext)
    (ext : ExtWorld) (st : RState) (warnings : List SecretResolverWarning) :
    Except SecretError AVal × RState × List SecretResolverWarning :=
  let explicitRef := refOf (getField target "serviceAccountRef")
  let inlineRef := refOf (getField target "serviceAccount")
  match explicitRef.orElse (fun _ => inlineRef) with
  | none => (.ok target, st, warnings)
  | some ref =>
    let warn := explicitRef.isSome &&
      (match getField target "serviceAccount" with
       | some v => !isSecretRefV v
       | none => false)
    let st1 := if warn then { st with nextAddr := st.nextAddr + 1 } else st
    let warnings1 :=
      if warn then
        warnings ++ [⟨st.nextAddr, "SECRETS_REF_OVERRIDES_PLAINTEXT", path,
          path ++ ": serviceAccountRef is set; runtime will ignore plaintext serviceAccount."⟩]
      else warnings
    let p := resolveSecretRefValue ref ctx ext st1
    match p.1 with
    | .error e => (.error e, p.2, warnings1)
    | .ok v => (.ok (setField target "serviceAccount" v), p.2, warnings1)

/-- One iteration of the provider loop of `resolveConfigSecretRefs` (source
lines 161-172): a provider whose `apiKey` is not a secret reference is left
unchanged; otherwise the reference is resolved, a non-(non-empty-string)
result raises `InvalidResolvedValue`, and the field is overwritten. -/
def resolveProviderEntry (providerId : String) (provider : AVal) (ctx : ResolverContext)
    (ext : ExtWorld) (st : RState) : Except SecretError AVal × RState :=
  match refOf (getField provider "apiKey") with
  | none => (.ok provider, st)
  | some ref =>
    let p := resolveSecretRefValue ref ctx ext st
    match p.1 with
    | .error e => (.error e, p.2)
    | .ok v =>
      if isNonEmptyStringV v then (.ok (setField provider "apiKey" v), p.2)
      else (.error (.InvalidResolvedValue ("models.providers." ++ providerId ++ ".apiKey")), p.2)

/-- The provider loop (`for ... of Object.entries(providers)`), in insertion
order, aborting on the first failure. -/
def resolveProvidersList (entries : List (String × AVal)) (ctx : ResolverContext)
    (ext : ExtWorld) (st : RState) : Except SecretError (List (String × AVal)) × RState :=
  match entries with
  | [] => (.ok [], st)
  | (pid, p) :: rest =>
    let q := resolveProviderEntry pid p ctx ext st
    match q.1 with
    | .error e => (.error e, q.2)
    | .ok p' =>
      let r := resolveProvidersList rest ctx ext q.2
      match r.1 with
      | .error e => (.error e, r.2)
      | .ok ps => (.ok ((pid, p') :: ps), r.2)

/-- The sub-account loop of the googlechat phase (source lines 183-195):
non-record entries are skipped, record entries are processed as chat targets
under the path `channels.googlechat.accounts.<id>`. -/
def resolveGoogleChatAccounts (entries : List (String × AVal)) (ctx : ResolverContext)
    (ext : ExtWorld) (st : RState) (warnings : List SecretResolverWarning) :
    Except SecretError (List (String × AVal)) × RState × List SecretResolverWarning :=
  match entries with
  | [] => (.ok [], st, warnings)
  | (accountId, account) :: rest =>
    if isRecordV account then
      let q := resolveGoogleChatServiceAccount account
        ("channels.googlechat.accounts." ++ accountId) ctx ext st warnings
      match q.1 with
      | .error e => (.error e, q.2.1, q.2.2)
      | .ok account' =>
        let r := resolveGoogleChatAccounts rest ctx ext q.2.1 q.2.2
        match r.1 with
        | .error e => (.error e, r.2.1, r.2.2)
        | .ok accs => (.ok ((accountId, account') :: accs), r.2.1, r.2.2)
    else
      let r := resolveGoogleChatAccounts rest ctx ext st warnings
      match r.1 with
      | .error e => (.error e, r.2.1, r.2.2)
      | .ok accs => (.ok ((accountId, account) :: accs), r.2.1, r.2.2)

/-- The provider phase of `resolveConfigSecretRefs` (source lines 159-173),
operating on the already-cloned configuration. -/
def resolveConfigProvidersPhase (resolved : OpenClawConfig) (ctx : ResolverContext)
    (ext : ExtWorld) (st : RState) : Except SecretError OpenClawConfig × RState :=
  match resolved.models with
  | none => (.ok resolved, st)
  | some ms =>
    match ms.providers with
    | none => (.ok resolved, st)
    | some nv =>
      let q := resolveProvidersList nv.entries ctx ext st
      match q.1 with
      | .error e => (.error e, q.2)
      | .ok entries' =>
        (.ok { resolved with
          models := some { ms with providers := some { nv with entries := entries' } } }, q.2)

/-- The googlechat phase of `resolveConfigSecretRefs` (source lines 175-196):
the top-level chat channel entry is processed when present and truthy, then
each record entry of its `accounts` record. -/
def resolveConfigGoogleChatPhase (resolved : OpenClawConfig) (ctx : ResolverContext)
    (ext : ExtWorld) (st : RState) (warnings : List SecretResolverWarning) :
    Except SecretError OpenClawConfig × RState × List SecretResolverWarning :=
  match resolved.channels with
  | none => (.ok resolved, st, warnings)
  | some ch =>
    match ch.googlechat with
    | none => (.ok resolved, st, warnings)
    | some gc =>
      if truthy gc then
        let q := resolveGoogleChatServiceAccount gc "channels.googlechat" ctx ext st warnings
        match q.1 with
        | .error e => (.error e, q.2.1, q.2.2)
        | .ok gc1 =>
          match getField gc1 "accounts" with
          | some (.vobj accountsAddr accEntries) =>
            let r := resolveGoogleChatAccounts accEntries ctx ext q.2.1 q.2.2
            match r.1 with
            | .error e => (.error e, r.2.1, r.2.2)
            | .ok accs' =>
              let gc2 := setField gc1 "accounts" (.vobj accountsAddr accs')
              (.ok { resolved with channels := some { ch with googlechat := some gc2 } },
                r.2.1, r.2.2)
          | _ =>
            (.ok { resolved with channels := some { ch with googlechat := some gc1 } },
              q.2.1, q.2.2)
      else (.ok resolved, st, warnings)

/-- `resolveConfigSecretRefs` (source lines 153-199): deep-clone the input
configuration, then run the provider phase and the googlechat phase on the
clone. -/
def resolveConfigSecretRefs (config : OpenClawConfig) (ctx : ResolverContext) (ext : ExtWorld)
    (st : RState) (warnings : List SecretResolverWarning) :
    Except SecretError OpenClawConfig × RState × List SecretResolverWarning :=
  let pc := cloneConfig config st.nextAddr
  let st0 := { st with nextAddr := pc.2 }
  let q := resolveConfigProvidersPhase pc.1 ctx ext st0
  match q.1 with
  | .error e => (.error e, q.2, warnings)
  | .ok r1 => resolveConfigGoogleChatPhase r1 ctx ext q.2 warnings

/-- One iteration of the profile loop of `resolveAuthStoreSecretRefs` (source
lines 208-247): `api_key` profiles are processed against `keyRef`/`key`,
`token` profiles identically against `tokenRef`/`token`, any other profile is
left untouched.  The override warning fires when the ref is present and the
plaintext field is a non-empty string; a resolved value that is not a
non-empty string raises `EmptyResolvedCredential`. -/
def resolveAuthProfileEntry (agentDir profileId : String) (profile : AuthProfile)
    (ctx : ResolverContext) (ext : ExtWorld) (st : RState)
    (warnings : List SecretResolverWarning) :
    Except SecretError AuthProfile × RState × List SecretResolverWarning :=
  match profile with
  | .apiKeyProf addr key keyRef rest =>
    let kr := refOf keyRef
    let warn := kr.isSome && isNonEmptyStringO key
    let st1 := if warn then { st with nextAddr := st.nextAddr + 1 } else st
    let ws1 :=
      if warn then
        warnings ++ [⟨st.nextAddr, "SECRETS_REF_OVERRIDES_PLAINTEXT",
          agentDir ++ ".auth-profiles." ++ profileId ++ ".key",
          "auth-profiles " ++ profileId ++ ": keyRef is set; runtime will ignore plaintext key."⟩]
      else warnings
    match kr with
    | none => (.ok profile, st1, ws1)
    | some r =>
      let p := resolveSecretRefValue r ctx ext st1
      match p.1 with
      | .error e => (.error e, p.2, ws1)
      | .ok v =>
        match asNonEmptyString v with
        | none => (.error (.EmptyResolvedCredential profileId), p.2, ws1)
        | some s => (.ok (.apiKeyProf addr (some s) keyRef rest), p.2, ws1)
  | .tokenProf addr token tokenRef rest =>
    let kr := refOf tokenRef
    let warn := kr.isSome && isNonEmptyStringO token
    let st1 := if warn then { st with nextAddr := st.nextAddr + 1 } else st
    let ws1 :=
      if warn then
        warnings ++ [⟨st.nextAddr, "SECRETS_REF_OVERRIDES_PLAINTEXT",
          agentDir ++ ".auth-profiles." ++ profileId ++ ".token",
          "auth-profiles " ++ profileId ++ ": tokenRef is set; runtime will ignore plaintext token."⟩]
      else warnings
    match kr with
    | none => (.ok profile, st1, ws1)
    | some r =>
      let p := resolveSecretRefValue r ctx ext st1
      match p.1 with
      | .error e => (.error e, p.2, ws1)
      | .ok v =>
        match asNonEmptyString v with
        | none => (.error (.EmptyResolvedCredential profileId), p.2, ws1)
        | some s => (.ok (.tokenProf addr (some s) tokenRef rest), p.2, ws1)
  | .otherProf _ _ _ => (.ok profile, st, warnings)

/-- The profile loop (`for ... of Object.entries(resolvedStore.profiles)`),
in insertion order, aborting on the first failure. -/
def resolveAuthProfilesList (agentDir : String) (entries : List (String × AuthProfile))
    (ctx : ResolverContext) (ext : ExtWorld) (st : RState)
    (warnings : List SecretResolverWarning) :
    Except SecretError (List (String × AuthProfile)) × RState × List SecretResolverWarning :=
  match entries with
  | [] => (.ok [], st, warnings)
  | (pid, p) :: rest =>
    let q := resolveAuthProfileEntry agentDir pid p ctx ext st warnings
    match q.1 with
    | .error e => (.error e, q.2.1, q.2.2)
    | .ok p' =>
      let r := resolveAuthProfilesList agentDir rest ctx ext q.2.1 q.2.2
      match r.1 with
      | .error e => (.error e, r.2.1, r.2.2)
      | .ok ps => (.ok ((pid, p') :: ps), r.2.1, r.2.2)

/-- `resolveAuthStoreSecretRefs` (source lines 201-249): deep-clone the store
and process every profile of the clone. -/
def resolveAuthStoreSecretRefs (store : AuthProfileStore) (agentDir : String)
    (ctx : ResolverContext) (ext : ExtWorld) (st : RState)
    (warnings : List SecretResolverWarning) :
    Except SecretError AuthProfileStore × RState × List SecretResolverWarning :=
  let pc := cloneStore store st.nextAddr
  let st0 := { st with nextAddr := pc.2 }
  let q := resolveAuthProfilesList agentDir pc.1.profiles ctx ext st0 warnings
  match q.1 with
  | .error e => (.error e, q.2.1, q.2.2)
  | .ok entries' => (.ok { pc.1 with profiles := entries' }, q.2.1, q.2.2)

/-- First-occurrence deduplication, seen-set accumulator form. -/
def dedupFirstAux : List String → List String → List String
  | _, [] => []
  | seen, x :: xs =>
    if seen.contains x then dedupFirstAux seen xs
    else x :: dedupFirstAux (x :: seen) xs

/-- First-occurrence deduplication (`[...new Set(list)]`). -/
def dedupFirst (l : List String) : List String := dedupFirstAux [] l

/-- `collectCandidateAgentDirs` (source lines 251-258): the default agent
directory plus the directory of every known agent id, deduplicated in
first-occurrence order. -/
def collectCandidateAgentDirs (config : OpenClawConfig) (ext : ExtWorld) : List String :=
  dedupFirst (ext.resolveUserPath ext.openClawAgentDir ::
    (ext.listAgentIds config).map (fun aid => ext.resolveUserPath (ext.resolveAgentDir config aid)))

/-- One element of the snapshot's `authStores` array (`(agentDir, store)`
entry object, with its own identity). -/
structure AuthStoreEntry where
  addr : Nat
  agentDir : String
  store : AuthProfileStore

/-- The agent-directory loop of `prepareSecretsRuntimeSnapshot` (source lines
283-292): load each directory's store, resolve it, and push an entry object. -/
def resolveStoresLoop (dirs : List String) (loadStore : String → AuthProfileStore)
    (ctx : ResolverContext) (ext : ExtWorld) (st : RState)
    (warnings : List SecretResolverWarning) :
    Except SecretError (List AuthStoreEntry) × RState × List SecretResolverWarning :=
  match dirs with
  | [] => (.ok [], st, warnings)
  | d :: rest =>
    let raw := loadStore d
    let q := resolveAuthStoreSecretRefs raw d ctx ext st warnings
    match q.1 with
    | .error e => (.error e, q.2.1, q.2.2)
    | .ok rs =>
      let entry : AuthStoreEntry := ⟨q.2.1.nextAddr, d, rs⟩
      let st1 := { q.2.1 with nextAddr := q.2.1.nextAddr + 1 }
      let r := resolveStoresLoop rest loadStore ctx ext st1 q.2.2
      match r.1 with
      | .error e => (.error e, r.2.1, r.2.2)
      | .ok entries => (.ok (entry :: entries), r.2.1, r.2.2)

/-- `PreparedSecretsRuntimeSnapshot`; `authStoresAddr`/`warningsAddr` are the
identities of the `authStores` and `warnings` array objects. -/
structure PreparedSecretsRuntimeSnapshot where
  addr : Nat
  sourceConfig : OpenClawConfig
  config : OpenClawConfig
  authStoresAddr : Nat
  authStores : List AuthStoreEntry
  warningsAddr : Nat
  warnings : List SecretResolverWarning

/-- The caller-supplied parameters of `prepareSecretsRuntimeSnapshot`
(`env`, `agentDirs` and `loadAuthStore` are optional; absent ones fall back
to the process environment, directory discovery, and the standard store
loader). -/
structure PrepareParams where
  config : OpenClawConfig
  env : Option (String → Option String)
  agentDirs : Option (List String)
  loadAuthStore : Option (String → AuthProfileStore)

/-- `prepareSecretsRuntimeSnapshot` (source lines 260-300): build a fresh
resolver context and state, resolve the configuration, determine the
candidate agent directories (an explicit non-empty caller list, resolved and
deduplicated, or discovery from the resolved configuration), resolve every
store, and bundle the snapshot; the snapshot's `sourceConfig` is a deep clone
of the caller's input configuration.  `n0` seeds the allocation counter. -/
def prepareSecretsRuntimeSnapshot (params : PrepareParams) (ext : ExtWorld) (n0 : Nat) :
    Except SecretError PreparedSecretsRuntimeSnapshot × RState :=
  let ctx : ResolverContext := ⟨params.config, params.env.getD ext.processEnv⟩
  let st : RState := ⟨none, 0, n0⟩
  let q := resolveConfigSecretRefs params.config ctx ext st []
  match q.1 with
  | .error e => (.error e, q.2.1)
  | .ok resolvedConfig =>
    let loadStore := params.loadAuthStore.getD ext.loadAuthProfileStoreForRuntime
    let candidateDirs :=
      match params.agentDirs with
      | some dirs =>
        if dirs.length ≠ 0 then dedupFirst (dirs.map ext.resolveUserPath)
        else collectCandidateAgentDirs resolvedConfig ext
      | none => collectCandidateAgentDirs resolvedConfig ext
    let r := resolveStoresLoop candidateDirs loadStore ctx ext q.2.1 q.2.2
    match r.1 with
    | .error e => (.error e, r.2.1)
    | .ok entries =>
      let psc := cloneConfig params.config r.2.1.nextAddr
      let snap : PreparedSecretsRuntimeSnapshot :=
        ⟨psc.2, psc.1, resolvedConfig, psc.2 + 1, entries, psc.2 + 2, r.2.2⟩
      (.ok snap, { r.2.1 with nextAddr := psc.2 + 3 })

def stripEntry (e : AuthStoreEntry) : AuthStoreEntry := ⟨0, e.agentDir, stripStore e.store⟩

def entryAddrs (e : AuthStoreEntry) : List Nat := e.addr :: storeAddrs e.store

def entriesListAddrs : List AuthStoreEntry → List Nat
  | [] => []
  | e :: rest => entryAddrs e ++ entriesListAddrs rest

def warningsListAddrs : List SecretResolverWarning → List Nat
  | [] => []
  | w :: rest => w.addr :: warningsListAddrs rest

/-- Address erasure on a snapshot (deep equality). -/
def stripSnapshot (s : PreparedSecretsRuntimeSnapshot) : PreparedSecretsRuntimeSnapshot :=
  ⟨0, stripConfig s.sourceConfig, stripConfig s.config, 0, s.authStores.map stripEntry,
    0, s.warnings.map stripWarning⟩

/-- Addresses of every mutable sub-object of a snapshot. -/
def snapshotAddrs (s : PreparedSecretsRuntimeSnapshot) : List Nat :=
  s.addr :: s.authStoresAddr :: s.warningsAddr ::
    (configAddrs s.sourceConfig ++ configAddrs s.config ++ entriesListAddrs s.authStores
      ++ warningsListAddrs s.warnings)

/-- The entry copy made by `cloneSnapshot` (`(agentDir, store: structuredClone(...))`:
a fresh entry object holding a deep-cloned store). -/
def cloneEntry (e : AuthStoreEntry) (n : Nat) : AuthStoreEntry × Nat :=
  let p := cloneStore e.store (n + 1)
  (⟨n, e.agentDir, p.1⟩, p.2)

def cloneEntriesList : List AuthStoreEntry → Nat → List AuthStoreEntry × Nat
  | [], n => ([], n)
  | e :: rest, n =>
    let p := cloneEntry e n
    let q := cloneEntriesList rest p.2
    (p.1 :: q.1, q.2)

/-- The warning copy made by `cloneSnapshot` (`(...warning)` spread: a fresh
warning object with the same fields). -/
def cloneWarning (w : SecretResolverWarning) (n : Nat) : SecretResolverWarning × Nat :=
  ({ w with addr := n }, n + 1)

def cloneWarningsList : List SecretResolverWarning → Nat → List SecretResolverWarning × Nat
  | [], n => ([], n)
  | w :: rest, n =>
    let p := cloneWarning w n
    let q := cloneWarningsList rest p.2
    (p.1 :: q.1, q.2)

/-- `cloneSnapshot` (source lines 64-74): a fresh snapshot object with
deep-cloned `sourceConfig` and `config`, a fresh `authStores` array of fresh
entry objects with deep-cloned stores, and a fresh `warnings` array of
spread-copied warning objects. -/
def cloneSnapshot (s : PreparedSecretsRuntimeSnapshot) (n : Nat) :
    PreparedSecretsRuntimeSnapshot × Nat :=
  let p1 := cloneConfig s.sourceConfig (n + 1)
  let p2 := cloneConfig s.config p1.2
  let p3 := cloneEntriesList s.authStores (p2.2 + 1)
  let p4 := cloneWarningsList s.warnings (p3.2 + 1)
  (⟨n, p1.1, p2.1, p2.2, p3.1, p3.2, p4.1⟩, p4.2)

/-- Process-wide state owned by the snapshot lifecycle: the module-level
`activeSnapshot` slot, and the two external registries. -/
structure GlobalState where
  activeSnapshot : Option PreparedSecretsRuntimeSnapshot
  runtimeConfig : Option (OpenClawConfig × OpenClawConfig)
  runtimeAuthStores : List AuthStoreEntry

/-- Modelled from the spec: `setRuntimeConfigSnapshot` (config/config, not
under src/) publishes the resolved and original configuration into the
process-wide config registry. -/
def setRuntimeConfigSnapshot (config sourceConfig : OpenClawConfig) (g : GlobalState) :
    GlobalState :=
  { g with runtimeConfig := some (config, sourceConfig) }

/-- Modelled from the spec: `clearRuntimeConfigSnapshot` (config/config, not
under src/) resets the process-wide config registry to its unresolved form. -/
def clearRuntimeConfigSnapshot (g : GlobalState) : GlobalState :=
  { g with runtimeConfig := none }

/-- Modelled from the spec: `replaceRuntimeAuthProfileStoreSnapshots`
(agents/auth-profiles, not under src/) replaces, not merges, the process-wide
auth-store registry. -/
def replaceRuntimeAuthProfileStoreSnapshots (stores : List AuthStoreEntry) (g : GlobalState) :
    GlobalState :=
  { g with runtimeAuthStores := stores }

/-- Modelled from the spec: `clearRuntimeAuthProfileStoreSnapshots`
(agents/auth-profiles, not under src/) resets the process-wide auth-store
registry. -/
def clearRuntimeAuthProfileStoreSnapshots (g : GlobalState) : GlobalState :=
  { g with runtimeAuthStores := [] }

/-- `activateSecretsRuntimeSnapshot` (source lines 302-307): deep-clone the
snapshot, publish its configurations and auth stores, and record the clone as
the active snapshot. -/
def activateSecretsRuntimeSnapshot (snapshot : PreparedSecretsRuntimeSnapshot)
    (g : GlobalState) (n : Nat) : GlobalState × Nat :=
  let p := cloneSnapshot snapshot n
  let g1 := setRuntimeConfigSnapshot p.1.config p.1.sourceConfig g
  let g2 := replaceRuntimeAuthProfileStoreSnapshots p.1.authStores g1
  ({ g2 with activeSnapshot := some p.1 }, p.2)

/-- `getActiveSecretsRuntimeSnapshot` (source lines 309-311): a deep-cloned
copy of the active snapshot, or the absent marker. -/
def getActiveSecretsRuntimeSnapshot (g : GlobalState) (n : Nat) :
    Option PreparedSecretsRuntimeSnapshot × Nat :=
  match g.activeSnapshot with
  | some s =>
    let p := cloneSnapshot s n
    (some p.1, p.2)
  | none => (none, n)

/-- `clearSecretsRuntimeSnapshot` (source lines 313-317). -/
def clearSecretsRuntimeSnapshot (g : GlobalState) : GlobalState :=
  clearRuntimeAuthProfileStoreSnapshots
    (clearRuntimeConfigSnapshot { g with activeSnapshot := none })

/-- An empty configuration fixture for concrete witnesses. -/
def emptyConfig : OpenClawConfig := ⟨0, none, none, none, []⟩

/-- A sample environment holding only `ACME_KEY`. -/
def sampleEnv : String → Option String := fun k => if k = "ACME_KEY" then some "secret123" else none

/-- An empty auth-profile store fixture. -/
def emptyStore : AuthProfileStore := ⟨0, 1, 1, []⟩

/-- A sample external world fixture: the decrypt facility fails, every
directory's store is empty. -/
def sampleExt : ExtWorld :=
  ⟨fun _ _ => .error (.DecryptFailed "sops unavailable"), 10000, id, "default-agent",
    fun _ => [], fun _ d => d, fun _ => emptyStore, fun _ => none⟩

/-- A sample resolver context over the empty configuration and `sampleEnv`. -/
def sampleCtx : ResolverContext := ⟨emptyConfig, sampleEnv⟩

/-- A fresh resolution state with allocation counter 100. -/
def rstate0 : RState := ⟨none, 0, 100⟩

/-- Claim C1: for every secret reference with source `"env"`: if the id trims
to the empty string, resolution fails with `InvalidReference`; otherwise, if
the environment variable named by the trimmed id is absent, or empty or
whitespace-only (its trim has length zero), resolution fails with
`MissingSecret`; otherwise resolution returns the variable's exact raw
(untrimmed) string value.  The state is untouched in all four cases. -/
theorem C1_env_resolution (ref : SecretRef) (ctx : ResolverContext) (ext : ExtWorld)
    (st : RState) (hsrc : ref.source = "env") :
    (jsTrim ref.id = "" →
      resolveSecretRefValue ref ctx ext st = (.error .InvalidReference, st)) ∧
    (jsTrim ref.id ≠ "" → ctx.env (jsTrim ref.id) = none →
      resolveSecretRefValue ref ctx ext st = (.error (.MissingSecret (jsTrim ref.id)), st)) ∧
    (∀ s, jsTrim ref.id ≠ "" → ctx.env (jsTrim ref.id) = some s → strLen (jsTrim s) = 0 →
      resolveSecretRefValue ref ctx ext st = (.error (.MissingSecret (jsTrim ref.id)), st)) ∧
    (∀ s, jsTrim ref.id ≠ "" → ctx.env (jsTrim ref.id) = some s → 0 < strLen (jsTrim s) →
      resolveSecretRefValue ref ctx ext st = (.ok (.vstr s), st)) := by
  refine ⟨fun h1 => ?_, fun h1 h2 => ?_, fun s h1 h2 h3 => ?_, fun s h1 h2 h3 => ?_⟩
  · simp [resolveSecretRefValue, h1]
  · simp [resolveSecretRefValue, h1, hsrc, h2]
  · simp [resolveSecretRefValue, h1, hsrc, h2, h3]
  · simp [resolveSecretRefValue, h1, hsrc, h2, h3, Nat.pos_iff_ne_zero.mp h3]

/-- Witness for C1: concrete instances of all four branches against
`sampleEnv` (`ACME_KEY = "secret123"`). -/
theorem C1_env_resolution_witness :
    resolveSecretRefValue ⟨"env", " ACME_KEY "⟩ sampleCtx sampleExt rstate0
        = (.ok (.vstr "secret123"), rstate0) ∧
    resolveSecretRefValue ⟨"env", "MISSING"⟩ sampleCtx sampleExt rstate0
        = (.error (.MissingSecret "MISSING"), rstate0) ∧
    resolveSecretRefValue ⟨"env", "  "⟩ sampleCtx sampleExt rstate0
        = (.error .InvalidReference, rstate0) := by
  refine ⟨?_, ?_, ?_⟩
  · exact (C1_env_resolution ⟨"env", " ACME_KEY "⟩ sampleCtx sampleExt rstate0 rfl).2.2.2
      "secret123" (by decide) (by decide) (by decide)
  · exact (C1_env_resolution ⟨"env", "MISSING"⟩ sampleCtx sampleExt rstate0 rfl).2.1
      (by decide) (by decide)
  · exact (C1_env_resolution ⟨"env", "  "⟩ sampleCtx sampleExt rstate0 rfl).1 (by decide)

/-- Claim C10: for every secret reference whose id trims to the empty string,
resolution fails with `InvalidReference` regardless of the reference's
source, and the state is returned untouched: for a `"file"` source nothing is
cached and no decrypt is started, and for an unsupported source the
`UnsupportedSource` failure is never reached, because the empty-id check
precedes the source dispatch. -/
theorem C10_empty_id_any_source (ref : SecretRef) (ctx : ResolverContext) (ext : ExtWorld)
    (st : RState) (h : jsTrim ref.id = "") :
    resolveSecretRefValue ref ctx ext st = (.error .InvalidReference, st) := by
  simp [resolveSecretRefValue, h]

/-- Witness for C10: a file-sourced and an unsupported-source reference with
whitespace-only ids both fail with `InvalidReference` and leave the state
(cache slot, decrypt count) untouched. -/
theorem C10_empty_id_any_source_witness :
    resolveSecretRefValue ⟨"file", "   "⟩ sampleCtx sampleExt rstate0
        = (.error .InvalidReference, rstate0) ∧
    resolveSecretRefValue ⟨"vault", ""⟩ sampleCtx sampleExt rstate0
        = (.error .InvalidReference, rstate0) :=
  ⟨C10_empty_id_any_source ⟨"file", "   "⟩ sampleCtx sampleExt rstate0 (by decide),
    C10_empty_id_any_source ⟨"vault", ""⟩ sampleCtx sampleExt rstate0 (by decide)⟩

/-- A non-sops file source fixture. -/
def ageFileSource : FileSourceLike := ⟨3, "age", "secrets.age", none⟩

/-- A configuration whose file secret source has an unsupported type. -/
def ageConfig : OpenClawConfig := ⟨0, none, none, some ⟨1, some ⟨2, some ageFileSource⟩⟩, []⟩

/-- Resolver context over `ageConfig`. -/
def ageCtx : ResolverContext := ⟨ageConfig, sampleEnv⟩

/-- A sops file source fixture. -/
def sopsFileSource : FileSourceLike := ⟨3, "sops", "secrets.enc.json", some 5000⟩

/-- A configuration with a configured sops file source. -/
def sopsConfig : OpenClawConfig := ⟨0, none, none, some ⟨1, some ⟨2, some sopsFileSource⟩⟩, []⟩

/-- Resolver context over `sopsConfig`. -/
def sopsCtx : ResolverContext := ⟨sopsConfig, sampleEnv⟩

/-- A decrypted payload fixture. -/
def sopsPayload : AVal := .vobj 900 [("api", .vobj 901 [("key", .vstr "filesecret")])]

/-- An external world whose decrypt facility succeeds with `sopsPayload`. -/
def sopsExt : ExtWorld := { sampleExt with sopsDecrypt := fun _ _ => .ok sopsPayload }

/-- Claim C9: for every file-sourced reference with a non-empty trimmed id,
resolution fails with `NotConfigured` when no file secret source is
configured, and with `UnsupportedSourceType` when the configured source's
type is not `"sops"`; in both cases the external decrypt facility is not
invoked (the decrypt count is unchanged).  The same two guards are stated
for `decryptSopsFile` itself. -/
theorem C9_file_source_guards (ref : SecretRef) (ctx : ResolverContext) (ext : ExtWorld)
    (st : RState) (hsrc : ref.source = "file") (hid : jsTrim ref.id ≠ "")
    (hcache : st.fileSecretsPromise = none) :
    (configFileSource ctx.config = none →
      decryptSopsFile ctx.config ext st = (.error .NotConfigured, st) ∧
      (resolveSecretRefValue ref ctx ext st).1 = .error .NotConfigured ∧
      (resolveSecretRefValue ref ctx ext st).2.decryptCount = st.decryptCount) ∧
    (∀ fsrc, configFileSource ctx.config = some fsrc → fsrc.type ≠ "sops" →
      decryptSopsFile ctx.config ext st = (.error (.UnsupportedSourceType fsrc.type), st) ∧
      (resolveSecretRefValue ref ctx ext st).1 = .error (.UnsupportedSourceType fsrc.type) ∧
      (resolveSecretRefValue ref ctx ext st).2.decryptCount = st.decryptCount) := by
  constructor
  · intro hnone
    have hd : decryptSopsFile ctx.config ext st = (.error .NotConfigured, st) := by
      simp [decryptSopsFile, hnone]
    refine ⟨hd, ?_, ?_⟩ <;>
      simp [resolveSecretRefValue, hid, hsrc, hcache, hd, Except.bind]
  · intro fsrc hsome htype
    have hd : decryptSopsFile ctx.config ext st
        = (.error (.UnsupportedSourceType fsrc.type), st) := by
      simp [decryptSopsFile, hsome, htype]
    refine ⟨hd, ?_, ?_⟩ <;>
      simp [resolveSecretRefValue, hid, hsrc, hcache, hd, Except.bind]

/-- Witness for C9: with no file source configured, resolution of a
file-sourced reference fails with `NotConfigured`; with an `"age"` source it
fails with `UnsupportedSourceType "age"`; both leave the decrypt count at 0. -/
theorem C9_file_source_guards_witness :
    ((resolveSecretRefValue ⟨"file", "api/key"⟩ sampleCtx sampleExt rstate0).1
        = .error .NotConfigured ∧
      (resolveSecretRefValue ⟨"file", "api/key"⟩ sampleCtx sampleExt rstate0).2.decryptCount
        = 0) ∧
    ((resolveSecretRefValue ⟨"file", "api/key"⟩ ageCtx sampleExt rstate0).1
        = .error (.UnsupportedSourceType "age") ∧
      (resolveSecretRefValue ⟨"file", "api/key"⟩ ageCtx sampleExt rstate0).2.decryptCount
        = 0) := by
  have h1 := (C9_file_source_guards ⟨"file", "api/key"⟩ sampleCtx sampleExt rstate0 rfl
    (by decide) rfl).1 rfl
  have h2 := (C9_file_source_guards ⟨"file", "api/key"⟩ ageCtx sampleExt rstate0 rfl
    (by decide) rfl).2 ageFileSource rfl (by decide)
  exact ⟨⟨h1.2.1, h1.2.2⟩, ⟨h2.2.1, h2.2.2⟩⟩

/-- State after resolving a reference against a context whose cache slot is
already settled: nothing changes. -/
theorem rsv_cached_state (ref : SecretRef) (ctx : ResolverContext) (ext : ExtWorld)
    (st : RState) (r : Except SecretError AVal) (h : st.fileSecretsPromise = some r) :
    (resolveSecretRefValue ref ctx ext st).2 = st := by
  simp only [resolveSecretRefValue, h]
  repeat' split
  all_goals rfl

/-- Result of resolving a file-sourced reference against a settled cache
slot: the cached decrypt outcome feeds the JSON-pointer lookup. -/
theorem rsv_cached_result (ref : SecretRef) (ctx : ResolverContext) (ext : ExtWorld)
    (st : RState) (r : Except SecretError AVal) (h : st.fileSecretsPromise = some r)
    (hsrc : ref.source = "file") (hid : jsTrim ref.id ≠ "") :
    (resolveSecretRefValue ref ctx ext st).1
      = r.bind (fun payload => readJsonPointer payload (jsTrim ref.id)) := by
  simp [resolveSecretRefValue, h, hsrc, hid]

/-- After resolving any reference against an unsettled cache slot the state
is either untouched or has a settled cache slot and at most one more decrypt
invocation. -/
theorem rsv_uncached_after (ref : SecretRef) (ctx : ResolverContext) (ext : ExtWorld)
    (st : RState) (h : st.fileSecretsPromise = none) :
    (resolveSecretRefValue ref ctx ext st).2 = st ∨
    ((resolveSecretRefValue ref ctx ext st).2.fileSecretsPromise.isSome ∧
      (resolveSecretRefValue ref ctx ext st).2.decryptCount ≤ st.decryptCount + 1) := by
  by_cases h1 : jsTrim ref.id = ""
  · left; simp [resolveSecretRefValue, h1]
  · by_cases h2 : ref.source = "env"
    · left
      cases henv : ctx.env (jsTrim ref.id) with
      | none => simp [resolveSecretRefValue, h1, h2, henv]
      | some s =>
        by_cases hs : 0 < strLen (jsTrim s)
        · simp [resolveSecretRefValue, h1, h2, henv, hs]
        · simp [resolveSecretRefValue, h1, h2, henv, hs]
    · by_cases h3 : ref.source = "file"
      · right
        have hcount : (decryptSopsFile ctx.config ext st).2.decryptCount
            ≤ st.decryptCount + 1 := by
          simp only [decryptSopsFile]
          repeat' split
          all_goals simp
        simp [resolveSecretRefValue, h1, h2, h3, h, hcount]
      · left; simp [resolveSecretRefValue, h1, h2, h3]

/-- A sequence of resolutions within one resolver context, in order
(asynchronous callers are sequentialised; see the module comment). -/
def resolveSeq (refs : List SecretRef) (ctx : ResolverContext) (ext : ExtWorld)
    (st : RState) : RState :=
  match refs with
  | [] => st
  | r :: rest => resolveSeq rest ctx ext (resolveSecretRefValue r ctx ext st).2

/-- A sequence of resolutions against a settled cache slot leaves the state
untouched. -/
theorem resolveSeq_cached (refs : List SecretRef) (ctx : ResolverContext) (ext : ExtWorld)
    (st : RState) (r : Except SecretError AVal) (h : st.fileSecretsPromise = some r) :
    resolveSeq refs ctx ext st = st := by
  induction refs with
  | nil => rfl
  | cons hd tl ih =>
    simp only [resolveSeq]
    rw [rsv_cached_state hd ctx ext st r h]
    exact ih

/-- Claim C2: within one resolution context the external decrypt runs at most
once across any sequence of resolutions (the decrypt count grows by at most
one from a fresh context); the first file-sourced resolution (with a
non-empty id) installs the decrypt operation's outcome in the context's
cache slot; and once the slot is settled, every subsequent resolution leaves
the state untouched (no new decrypt) and file-sourced resolutions reuse the
cached outcome — success or failure — for their JSON-pointer lookup. -/
theorem C2_single_flight_decrypt (ctx : ResolverContext) (ext : ExtWorld) :
    (∀ (refs : List SecretRef) (st : RState), st.fileSecretsPromise = none →
      (resolveSeq refs ctx ext st).decryptCount ≤ st.decryptCount + 1) ∧
    (∀ (ref : SecretRef) (st : RState), st.fileSecretsPromise = none →
      ref.source = "file" → jsTrim ref.id ≠ "" →
      (resolveSecretRefValue ref ctx ext st).2.fileSecretsPromise
        = some (decryptSopsFile ctx.config ext st).1) ∧
    (∀ (ref : SecretRef) (st : RState) (r : Except SecretError AVal),
      st.fileSecretsPromise = some r →
      (resolveSecretRefValue ref ctx ext st).2 = st ∧
      (ref.source = "file" → jsTrim ref.id ≠ "" →
        (resolveSecretRefValue ref ctx ext st).1
          = r.bind (fun payload => readJsonPointer payload (jsTrim ref.id)))) := by
  refine ⟨?_, ?_, ?_⟩
  · intro refs
    induction refs with
    | nil => intro st h; simp [resolveSeq]
    | cons hd tl ih =>
      intro st h
      simp only [resolveSeq]
      rcases rsv_uncached_after hd ctx ext st h with heq | ⟨hsome, hle⟩
      · rw [heq]; exact ih st h
      · obtain ⟨r, hr⟩ := Option.isSome_iff_exists.mp hsome
        rw [resolveSeq_cached tl ctx ext _ r hr]
        exact hle
  · intro ref st h hsrc hid
    simp [resolveSecretRefValue, hid, hsrc, h]
  · intro ref st r h
    exact ⟨rsv_cached_state ref ctx ext st r h,
      fun hsrc hid => rsv_cached_result ref ctx ext st r h hsrc hid⟩

/-- Witness for C2: two file-sourced references over a configured sops source
yield one decrypt; the first installs the payload in the cache slot; the
second reuses it and leaves the state untouched. -/
theorem C2_single_flight_decrypt_witness :
    (resolveSeq [⟨"file", "api/key"⟩, ⟨"file", "api"⟩] sopsCtx sopsExt rstate0).decryptCount
        ≤ 0 + 1 ∧
    (resolveSecretRefValue ⟨"file", "api/key"⟩ sopsCtx sopsExt rstate0).2.fileSecretsPromise
        = some (decryptSopsFile sopsConfig sopsExt rstate0).1 ∧
    (resolveSecretRefValue ⟨"file", "api"⟩ sopsCtx sopsExt ⟨some (.ok sopsPayload), 1, 100⟩).2
        = ⟨some (.ok sopsPayload), 1, 100⟩ ∧
    (resolveSecretRefValue ⟨"file", "api"⟩ sopsCtx sopsExt ⟨some (.ok sopsPayload), 1, 100⟩).1
        = (Except.ok sopsPayload).bind (fun payload => readJsonPointer payload (jsTrim "api")) := by
  have h := C2_single_flight_decrypt sopsCtx sopsExt
  have h3 := h.2.2 ⟨"file", "api"⟩ ⟨some (.ok sopsPayload), 1, 100⟩ (.ok sopsPayload) rfl
  exact ⟨h.1 [⟨"file", "api/key"⟩, ⟨"file", "api"⟩] rstate0 rfl,
    h.2.1 ⟨"file", "api/key"⟩ rstate0 rfl rfl (by decide),
    h3.1, h3.2 rfl (by decide)⟩

/-- Internal consistency of the secret-reference view: a value extracts to a
`SecretRef` exactly when `isSecretRefV` recognises it. -/
theorem asSecretRef_isSome (v : AVal) : (asSecretRef v).isSome = isSecretRefV v := by
  cases v <;> try rfl
  next a fs =>
  rcases hs : lookupField fs "source" with _ | sv <;>
    rcases hi : lookupField fs "id" with _ | iv
  · simp [asSecretRef, isSecretRefV, hs, hi]
  · simp [asSecretRef, isSecretRefV, hs, hi]
  · cases sv <;> simp [asSecretRef, isSecretRefV, hs, hi]
  · cases sv <;> cases iv <;> simp [asSecretRef, isSecretRefV, hs, hi]
    split <;> simp_all

/-- The outcome (first component) of a resolution does not depend on the
allocation counter. -/
theorem rsv_result_addr_indep (ref : SecretRef) (ctx : ResolverContext) (ext : ExtWorld)
    (st : RState) (n : Nat) :
    (resolveSecretRefValue ref ctx ext { st with nextAddr := n }).1
      = (resolveSecretRefValue ref ctx ext st).1 := by
  simp only [resolveSecretRefValue, decryptSopsFile]
  repeat' split
  all_goals rfl

/-- The condition under which the googlechat walk emits its override warning,
as implemented: an explicit `serviceAccountRef` reference is present, and the
primary `serviceAccount` field is defined and not itself a secret reference
(its content, empty or not, is irrelevant). -/
def gcWarnCondition (target : AVal) : Bool :=
  (refOf (getField target "serviceAccountRef")).isSome &&
    (match getField target "serviceAccount" with
     | some v => !isSecretRefV v
     | none => false)

/-- Claim C3 (amended): for every googlechat target (the walk applies this to
the top-level `channels.googlechat` entry and to each record entry of its
`accounts` record, with the corresponding path): when an explicit
`serviceAccountRef` reference is present it is the one resolved, even if the
primary field holds an inline reference; with no explicit reference an inline
reference in the primary field is resolved; and the
`SECRETS_REF_OVERRIDES_PLAINTEXT` warning naming the target's path is emitted
exactly when an explicit reference is present and the primary field is
defined and not a reference — regardless of whether that value is non-empty
(the amendment: the source performs no non-emptiness check, see
`C3_counterexample`). -/
theorem C3_googlechat_precedence_and_warning (target : AVal) (path : String)
    (ctx : ResolverContext) (ext : ExtWorld) (st : RState)
    (ws : List SecretResolverWarning) :
    (∀ e, refOf (getField target "serviceAccountRef") = some e →
      (resolveGoogleChatServiceAccount target path ctx ext st ws).1
        = Except.map (fun v => setField target "serviceAccount" v)
            (resolveSecretRefValue e ctx ext st).1) ∧
    (refOf (getField target "serviceAccountRef") = none →
      ∀ i, refOf (getField target "serviceAccount") = some i →
      (resolveGoogleChatServiceAccount target path ctx ext st ws).1
        = Except.map (fun v => setField target "serviceAccount" v)
            (resolveSecretRefValue i ctx ext st).1) ∧
    ((resolveGoogleChatServiceAccount target path ctx ext st ws).2.2
      = ws ++ (if gcWarnCondition target then
          [⟨st.nextAddr, "SECRETS_REF_OVERRIDES_PLAINTEXT", path,
            path ++ ": serviceAccountRef is set; runtime will ignore plaintext serviceAccount."⟩]
        else [])) := by
  refine ⟨?_, ?_, ?_⟩
  · intro e he
    by_cases hw : (match getField target "serviceAccount" with
        | some v => !isSecretRefV v
        | none => false) = true
    · simp only [resolveGoogleChatServiceAccount, he, Option.orElse, Option.isSome_some,
        Bool.true_and, hw, if_true, rsv_result_addr_indep e ctx ext st (st.nextAddr + 1)]
      cases hr : (resolveSecretRefValue e ctx ext st).1 <;> simp [hr, Except.map]
    · simp [resolveGoogleChatServiceAccount, he, Option.orElse, hw]
      cases hr : (resolveSecretRefValue e ctx ext st).1 <;> simp [hr, Except.map]
  · intro he i hi
    simp [resolveGoogleChatServiceAccount, he, hi, Option.orElse]
    cases hr : (resolveSecretRefValue i ctx ext st).1 <;> simp [hr, Except.map]
  · rcases he : refOf (getField target "serviceAccountRef") with _ | e
    · rcases hi : refOf (getField target "serviceAccount") with _ | i
      · simp [resolveGoogleChatServiceAccount, he, hi, Option.orElse, gcWarnCondition]
      · simp [resolveGoogleChatServiceAccount, he, hi, Option.orElse, gcWarnCondition]
        cases hr : (resolveSecretRefValue i ctx ext st).1 <;> simp [hr]
    · by_cases hw : (match getField target "serviceAccount" with
        | some v => !isSecretRefV v
        | none => false) = true
      · simp only [resolveGoogleChatServiceAccount, he, Option.orElse, Option.isSome_some,
          Bool.true_and, hw, if_true, gcWarnCondition]
        cases hr : (resolveSecretRefValue e ctx ext
            { st with nextAddr := st.nextAddr + 1 }).1 <;> simp [hr, hw]
      · simp only [resolveGoogleChatServiceAccount, he, Option.orElse, Option.isSome_some,
          Bool.true_and, hw, if_false, gcWarnCondition]
        cases hr : (resolveSecretRefValue e ctx ext st).1 <;> simp [hr, hw]

/-- A secret-reference object fixture (env, `ACME_KEY`). -/
def envRefObj : AVal := .vobj 51 [("source", .vstr "env"), ("id", .vstr "ACME_KEY")]

/-- A googlechat target whose explicit ref coexists with an EMPTY plaintext
`serviceAccount`. -/
def gcEmptyTarget : AVal :=
  .vobj 50 [("serviceAccount", .vstr ""), ("serviceAccountRef", envRefObj)]

/-- Counterexample to claim C3 as stated: the claim asserts the override
warning is emitted exactly when the explicit ref is present AND the primary
`serviceAccount` field holds a non-reference, NON-EMPTY value.  Here the
primary field holds the empty string — a non-reference but empty value, for
which the claim predicts no warning — yet the source emits exactly one
`SECRETS_REF_OVERRIDES_PLAINTEXT` warning naming the path, because the code
checks only definedness and non-reference-ness, never non-emptiness. -/
theorem C3_counterexample :
    getField gcEmptyTarget "serviceAccount" = some (.vstr "") ∧
    isNonEmptyStringV (.vstr "") = false ∧
    (resolveGoogleChatServiceAccount gcEmptyTarget "channels.googlechat" sampleCtx sampleExt
        rstate0 []).2.2.map (fun w => (w.code, w.path))
      = [("SECRETS_REF_OVERRIDES_PLAINTEXT", "channels.googlechat")] := by
  refine ⟨rfl, by decide, ?_⟩
  rfl

/-- Witness for the amended C3: a target carrying both an explicit ref and a
non-empty plaintext `serviceAccount`: the explicit ref's resolved value lands
in the primary field and exactly one override warning is emitted; and a
target carrying both an explicit ref and an inline ref: the explicit one is
resolved and no warning is emitted (the primary field holds a reference, not
plaintext). -/
theorem C3_googlechat_precedence_and_warning_witness :
    (resolveGoogleChatServiceAccount
        (.vobj 60 [("serviceAccount", .vstr "plain"), ("serviceAccountRef", envRefObj)])
        "channels.googlechat" sampleCtx sampleExt rstate0 []).1
      = .ok (.vobj 60 [("serviceAccount", .vstr "secret123"), ("serviceAccountRef", envRefObj)]) ∧
    (resolveGoogleChatServiceAccount
        (.vobj 60 [("serviceAccount", .vstr "plain"), ("serviceAccountRef", envRefObj)])
        "channels.googlechat" sampleCtx sampleExt rstate0 []).2.2.map (fun w => (w.code, w.path))
      = [("SECRETS_REF_OVERRIDES_PLAINTEXT", "channels.googlechat")] ∧
    (resolveGoogleChatServiceAccount
        (.vobj 61 [("serviceAccount", envRefObj), ("serviceAccountRef", envRefObj)])
        "channels.googlechat" sampleCtx sampleExt rstate0 []).2.2 = [] := by
  have h1 := (C3_googlechat_precedence_and_warning
    (.vobj 60 [("serviceAccount", .vstr "plain"), ("serviceAccountRef", envRefObj)])
    "channels.googlechat" sampleCtx sampleExt rstate0 []).1 ⟨"env", "ACME_KEY"⟩ rfl
  have h2 := (C3_googlechat_precedence_and_warning
    (.vobj 60 [("serviceAccount", .vstr "plain"), ("serviceAccountRef", envRefObj)])
    "channels.googlechat" sampleCtx sampleExt rstate0 []).2.2
  have h3 := (C3_googlechat_precedence_and_warning
    (.vobj 61 [("serviceAccount", envRefObj), ("serviceAccountRef", envRefObj)])
    "channels.googlechat" sampleCtx sampleExt rstate0 []).2.2
  refine ⟨h1.trans (by rfl), ?_, ?_⟩
  · rw [h2]; rfl
  · rw [h3]; rfl

/-- Claim C4: for every profile processed by the auth-store walk:
an `api_key` profile with a (reference-shaped) `keyRef` and a non-empty
plaintext `key` yields exactly one `SECRETS_REF_OVERRIDES_PLAINTEXT` warning
whose path is composed of the agent directory label, the fixed
`auth-profiles` segment and the profile id (followed by the credential field
name `key`); a profile with a `keyRef` has it resolved, fails with
`EmptyResolvedCredential` when the resolved value is not a non-empty string,
and otherwise has `key` overwritten with the resolved value; `token`
profiles follow the identical logic against `tokenRef`/`token`; profiles of
any other type are left completely unchanged.  ("Non-empty" is the source's
`isNonEmptyString`: non-empty after trimming, matching the spec's
"empty/whitespace-only" notion of emptiness.)  The store walk
`resolveAuthStoreSecretRefs` applies `resolveAuthProfileEntry` to every
profile of the cloned store in insertion order. -/
theorem C4_auth_store_walk (agentDir profileId : String) (ctx : ResolverContext)
    (ext : ExtWorld) (st : RState) (ws : List SecretResolverWarning) :
    (∀ addr key keyRef rest,
      ((resolveAuthProfileEntry agentDir profileId (.apiKeyProf addr key keyRef rest)
          ctx ext st ws).2.2
        = ws ++ (if (refOf keyRef).isSome && isNonEmptyStringO key then
            [⟨st.nextAddr, "SECRETS_REF_OVERRIDES_PLAINTEXT",
              agentDir ++ ".auth-profiles." ++ profileId ++ ".key",
              "auth-profiles " ++ profileId ++ ": keyRef is set; runtime will ignore plaintext key."⟩]
          else [])) ∧
      (refOf keyRef = none →
        (resolveAuthProfileEntry agentDir profileId (.apiKeyProf addr key keyRef rest)
            ctx ext st ws).1 = .ok (.apiKeyProf addr key keyRef rest)) ∧
      (∀ r, refOf keyRef = some r →
        (resolveAuthProfileEntry agentDir profileId (.apiKeyProf addr key keyRef rest)
            ctx ext st ws).1
          = match (resolveSecretRefValue r ctx ext st).1 with
            | .error e => .error e
            | .ok v =>
              match asNonEmptyString v with
              | none => .error (.EmptyResolvedCredential profileId)
              | some s => .ok (.apiKeyProf addr (some s) keyRef rest))) ∧
    (∀ addr token tokenRef rest,
      ((resolveAuthProfileEntry agentDir profileId (.tokenProf addr token tokenRef rest)
          ctx ext st ws).2.2
        = ws ++ (if (refOf tokenRef).isSome && isNonEmptyStringO token then
            [⟨st.nextAddr, "SECRETS_REF_OVERRIDES_PLAINTEXT",
              agentDir ++ ".auth-profiles." ++ profileId ++ ".token",
              "auth-profiles " ++ profileId ++ ": tokenRef is set; runtime will ignore plaintext token."⟩]
          else [])) ∧
      (refOf tokenRef = none →
        (resolveAuthProfileEntry agentDir profileId (.tokenProf addr token tokenRef rest)
            ctx ext st ws).1 = .ok (.tokenProf addr token tokenRef rest)) ∧
      (∀ r, refOf tokenRef = some r →
        (resolveAuthProfileEntry agentDir profileId (.tokenProf addr token tokenRef rest)
            ctx ext st ws).1
          = match (resolveSecretRefValue r ctx ext st).1 with
            | .error e => .error e
            | .ok v =>
              match asNonEmptyString v with
              | none => .error (.EmptyResolvedCredential profileId)
              | some s => .ok (.tokenProf addr (some s) tokenRef rest))) ∧
    (∀ addr t rest,
      resolveAuthProfileEntry agentDir profileId (.otherProf addr t rest) ctx ext st ws
        = (.ok (.otherProf addr t rest), st, ws)) := by
  refine ⟨fun addr key keyRef rest => ⟨?_, ?_, ?_⟩,
    fun addr token tokenRef rest => ⟨?_, ?_, ?_⟩, fun addr t rest => rfl⟩
  · rcases hk : refOf keyRef with _ | r
    · simp [resolveAuthProfileEntry, hk]
    · by_cases hne : isNonEmptyStringO key = true
      · simp only [resolveAuthProfileEntry, hk, Option.isSome_some, Bool.true_and, hne,
          if_true]
        cases hr : (resolveSecretRefValue r ctx ext
            { st with nextAddr := st.nextAddr + 1 }).1 <;> simp [hr]
        next v => cases hv : asNonEmptyString v <;> simp [hv]
      · simp only [resolveAuthProfileEntry, hk, Option.isSome_some, Bool.true_and, hne,
          if_false]
        cases hr : (resolveSecretRefValue r ctx ext st).1 <;> simp [hr, hne]
        next v => cases hv : asNonEmptyString v <;> simp [hv]
  · intro hk; simp [resolveAuthProfileEntry, hk]
  · intro r hk
    by_cases hne : isNonEmptyStringO key = true
    · simp only [resolveAuthProfileEntry, hk, Option.isSome_some, Bool.true_and, hne, if_true,
        rsv_result_addr_indep r ctx ext st (st.nextAddr + 1)]
      cases hr : (resolveSecretRefValue r ctx ext st).1 <;> simp [hr]
      next v => cases hv : asNonEmptyString v <;> simp [hv]
    · simp only [resolveAuthProfileEntry, hk, Option.isSome_some, Bool.true_and, hne, if_false]
      cases hr : (resolveSecretRefValue r ctx ext st).1 <;> simp [hr, hne]
      next v => cases hv : asNonEmptyString v <;> simp [hv]
  · rcases hk : refOf tokenRef with _ | r
    · simp [resolveAuthProfileEntry, hk]
    · by_cases hne : isNonEmptyStringO token = true
      · simp only [resolveAuthProfileEntry, hk, Option.isSome_some, Bool.true_and, hne,
          if_true]
        cases hr : (resolveSecretRefValue r ctx ext
            { st with nextAddr := st.nextAddr + 1 }).1 <;> simp [hr]
        next v => cases hv : asNonEmptyString v <;> simp [hv]
      · simp only [resolveAuthProfileEntry, hk, Option.isSome_some, Bool.true_and, hne,
          if_false]
        cases hr : (resolveSecretRefValue r ctx ext st).1 <;> simp [hr, hne]
        next v => cases hv : asNonEmptyString v <;> simp [hv]
  · intro hk; simp [resolveAuthProfileEntry, hk]
  · intro r hk
    by_cases hne : isNonEmptyStringO token = true
    · simp only [resolveAuthProfileEntry, hk, Option.isSome_some, Bool.true_and, hne, if_true,
        rsv_result_addr_indep r ctx ext st (st.nextAddr + 1)]
      cases hr : (resolveSecretRefValue r ctx ext st).1 <;> simp [hr]
      next v => cases hv : asNonEmptyString v <;> simp [hv]
    · simp only [resolveAuthProfileEntry, hk, Option.isSome_some, Bool.true_and, hne, if_false]
      cases hr : (resolveSecretRefValue r ctx ext st).1 <;> simp [hr, hne]
      next v => cases hv : asNonEmptyString v <;> simp [hv]

/-- Witness for C4: an `api_key` profile with plaintext `key = "plaintext"`
and an env `keyRef` resolves to `key = "secret123"` with exactly one override
warning at `agent.auth-profiles.openrouter:default.key`; an `oauth`-like
profile passes through untouched. -/
theorem C4_auth_store_walk_witness :
    (resolveAuthProfileEntry "agent" "openrouter:default"
        (.apiKeyProf 7 (some "plaintext") (some envRefObj) []) sampleCtx sampleExt rstate0 []).1
      = .ok (.apiKeyProf 7 (some "secret123") (some envRefObj) []) ∧
    (resolveAuthProfileEntry "agent" "openrouter:default"
        (.apiKeyProf 7 (some "plaintext") (some envRefObj) []) sampleCtx sampleExt
        rstate0 []).2.2.map (fun w => (w.code, w.path))
      = [("SECRETS_REF_OVERRIDES_PLAINTEXT", "agent.auth-profiles.openrouter:default.key")] ∧
    resolveAuthProfileEntry "agent" "x" (.otherProf 9 "oauth" [("access", .vstr "a")])
        sampleCtx sampleExt rstate0 []
      = (.ok (.otherProf 9 "oauth" [("access", .vstr "a")]), rstate0, []) := by
  have h := C4_auth_store_walk "agent" "openrouter:default" sampleCtx sampleExt rstate0 []
  refine ⟨(h.1 7 (some "plaintext") (some envRefObj) []).2.2 ⟨"env", "ACME_KEY"⟩ rfl |>.trans
    (by rfl), ?_, h.2.2 9 "oauth" [("access", .vstr "a")]⟩
  rw [(h.1 7 (some "plaintext") (some envRefObj) []).1]
  rfl

/-- Claim C5: for every model-provider entry of the config walk: an entry
whose `apiKey` field is a secret reference has the reference resolved, fails
with `InvalidResolvedValue` (naming `models.providers.<id>.apiKey`) when the
resolved value is not a non-empty string, and otherwise has the field
overwritten with the resolved value on the (cloned) entry; an entry whose
`apiKey` is not a secret reference is left completely unchanged, with the
state untouched.  The walk `resolveProvidersList` applies
`resolveProviderEntry` to every entry of the cloned record in insertion
order. -/
theorem C5_provider_api_key_walk (providerId : String) (provider : AVal)
    (ctx : ResolverContext) (ext : ExtWorld) (st : RState) :
    (refOf (getField provider "apiKey") = none →
      resolveProviderEntry providerId provider ctx ext st = (.ok provider, st)) ∧
    (∀ r, refOf (getField provider "apiKey") = some r →
      resolveProviderEntry providerId provider ctx ext st
        = (match (resolveSecretRefValue r ctx ext st).1 with
          | .error e => .error e
          | .ok v =>
            if isNonEmptyStringV v then .ok (setField provider "apiKey" v)
            else .error (.InvalidResolvedValue ("models.providers." ++ providerId ++ ".apiKey")),
          (resolveSecretRefValue r ctx ext st).2)) := by
  constructor
  · intro hk; simp [resolveProviderEntry, hk]
  · intro r hk
    simp only [resolveProviderEntry, hk]
    cases hr : (resolveSecretRefValue r ctx ext st).1 <;> simp [hr]
    next v => by_cases hv : isNonEmptyStringV v = true <;> simp [hv]

/-- Witness for C5: a provider entry with an env `apiKey` reference resolves
to the raw value, other fields preserved; an entry with a plaintext key is
untouched. -/
theorem C5_provider_api_key_walk_witness :
    resolveProviderEntry "acme"
        (.vobj 70 [("apiKey", envRefObj), ("baseUrl", .vstr "https://x")])
        sampleCtx sampleExt rstate0
      = (.ok (.vobj 70 [("apiKey", .vstr "secret123"), ("baseUrl", .vstr "https://x")]),
          rstate0) ∧
    resolveProviderEntry "acme" (.vobj 71 [("apiKey", .vstr "sk-plain")])
        sampleCtx sampleExt rstate0
      = (.ok (.vobj 71 [("apiKey", .vstr "sk-plain")]), rstate0) := by
  have h := C5_provider_api_key_walk "acme"
    (.vobj 70 [("apiKey", envRefObj), ("baseUrl", .vstr "https://x")]) sampleCtx sampleExt rstate0
  have h2 := C5_provider_api_key_walk "acme" (.vobj 71 [("apiKey", .vstr "sk-plain")])
    sampleCtx sampleExt rstate0
  exact ⟨(h.2 ⟨"env", "ACME_KEY"⟩ rfl).trans (by rfl), h2.1 rfl⟩

theorem lookupField_stripFields (fs : List (String × AVal)) (k : String) :
    lookupField (stripFields fs) k = (lookupField fs k).map stripVal := by
  induction fs with
  | nil => rfl
  | cons kv rest ih =>
    obtain ⟨key, v⟩ := kv
    by_cases hk : key = k <;> simp [stripFields, lookupField, hk, ih]

theorem getField_stripVal (v : AVal) (k : String) :
    getField (stripVal v) k = (getField v k).map stripVal := by
  cases v <;> simp [getField, stripVal, lookupField_stripFields]

theorem asSecretRef_stripVal (v : AVal) : asSecretRef (stripVal v) = asSecretRef v := by
  cases v <;> try rfl
  next a fs =>
  simp only [stripVal, asSecretRef, lookupField_stripFields]
  rcases hs : lookupField fs "source" with _ | sv <;>
    rcases hi : lookupField fs "id" with _ | iv
  · rfl
  · cases iv <;> rfl
  · cases sv <;> rfl
  · cases sv <;> cases iv <;> rfl

theorem isSecretRefV_stripVal (v : AVal) : isSecretRefV (stripVal v) = isSecretRefV v := by
  rw [← asSecretRef_isSome, ← asSecretRef_isSome, asSecretRef_stripVal]

theorem truthy_stripVal (v : AVal) : truthy (stripVal v) = truthy v := by
  cases v <;> rfl

theorem isRecordV_stripVal (v : AVal) : isRecordV (stripVal v) = isRecordV v := by
  cases v <;> rfl

theorem refOf_getField_stripVal (v : AVal) (k : String) :
    refOf (getField (stripVal v) k) = refOf (getField v k) := by
  rw [getField_stripVal]
  cases getField v k with
  | none => rfl
  | some w => simp [refOf, asSecretRef_stripVal]

theorem setFields_lookup_self (fs : List (String × AVal)) (k : String) (v : AVal)
    (h : lookupField fs k = some v) : setFields fs k v = fs := by
  induction fs with
  | nil => simp [lookupField] at h
  | cons kv rest ih =>
    obtain ⟨key, w⟩ := kv
    by_cases hk : key = k
    · subst hk
      have hw : w = v := by simpa [lookupField] using h
      subst hw
      simp [setFields]
    · simp only [lookupField, hk, if_false, if_neg hk] at h
      simp [setFields, hk, ih h]

theorem setField_getField_self (o : AVal) (k : String) (v : AVal)
    (h : getField o k = some v) : setField o k v = o := by
  cases o <;> simp [getField] at h
  next a fs => simp [setField, setFields_lookup_self fs k v h]

/-- No provider entry of the record holds a reference-shaped `apiKey`. -/
def providerEntriesNoRefs (entries : List (String × AVal)) : Bool :=
  entries.all (fun kv => (refOf (getField kv.2 "apiKey")).isNone)

/-- Neither field of a googlechat target holds a secret reference. -/
def gcTargetNoRefs (t : AVal) : Bool :=
  (refOf (getField t "serviceAccountRef")).isNone &&
    (refOf (getField t "serviceAccount")).isNone

/-- No record entry of a googlechat `accounts` record holds a reference. -/
def gcAccountsNoRefs (entries : List (String × AVal)) : Bool :=
  entries.all (fun kv => !isRecordV kv.2 || gcTargetNoRefs kv.2)

/-- The googlechat value (when truthy) holds no references at the top level
nor in any record sub-account. -/
def gcValueNoRefs (gc : AVal) : Bool :=
  !truthy gc ||
    (gcTargetNoRefs gc &&
      (match getField gc "accounts" with
       | some (.vobj _ accs) => gcAccountsNoRefs accs
       | _ => true))

/-- The configuration contains no secret references in any walked field
(provider API keys; googlechat service-account fields). -/
def noSecretRefsConfig (c : OpenClawConfig) : Bool :=
  (match c.models with
   | some ms =>
     match ms.providers with
     | some nv => providerEntriesNoRefs nv.entries
     | none => true
   | none => true) &&
  (match c.channels with
   | some ch =>
     match ch.googlechat with
     | some gc => gcValueNoRefs gc
     | none => true
   | none => true)

theorem providerEntriesNoRefs_stripFields (entries : List (String × AVal)) :
    providerEntriesNoRefs (stripFields entries) = providerEntriesNoRefs entries := by
  induction entries with
  | nil => rfl
  | cons kv rest ih =>
    obtain ⟨key, v⟩ := kv
    simp only [providerEntriesNoRefs, stripFields, List.all_cons] at ih ⊢
    rw [refOf_getField_stripVal, ih]

theorem gcTargetNoRefs_stripVal (t : AVal) : gcTargetNoRefs (stripVal t) = gcTargetNoRefs t := by
  simp [gcTargetNoRefs, refOf_getField_stripVal]

theorem gcAccountsNoRefs_stripFields (entries : List (String × AVal)) :
    gcAccountsNoRefs (stripFields entries) = gcAccountsNoRefs entries := by
  induction entries with
  | nil => rfl
  | cons kv rest ih =>
    obtain ⟨key, v⟩ := kv
    simp only [gcAccountsNoRefs, stripFields, List.all_cons] at ih ⊢
    rw [isRecordV_stripVal, gcTargetNoRefs_stripVal, ih]

theorem gcValueNoRefs_stripVal (gc : AVal) : gcValueNoRefs (stripVal gc) = gcValueNoRefs gc := by
  simp only [gcValueNoRefs, truthy_stripVal, gcTargetNoRefs_stripVal, getField_stripVal]
  cases ha : getField gc "accounts" with
  | none => rfl
  | some w => cases w <;> simp [stripVal, gcAccountsNoRefs_stripFields]

theorem stripNamedVals_cloneNamedVals (nv : NamedVals) (n : Nat) :
    stripNamedVals (cloneNamedVals nv n).1 = stripNamedVals nv := by
  simp [cloneNamedVals, stripNamedVals, stripFields_cloneFields]

theorem stripFileSource_cloneFileSource (fsrc : FileSourceLike) (n : Nat) :
    stripFileSource (cloneFileSource fsrc n).1 = stripFileSource fsrc := rfl

theorem stripSources_cloneSources (s : SourcesSection) (n : Nat) :
    stripSources (cloneSources s n).1 = stripSources s := by
  cases hf : s.file with
  | none => simp [cloneSources, stripSources, cloneOptWith, hf]
  | some fsrc => simp [cloneSources, stripSources, cloneOptWith, hf, stripFileSource_cloneFileSource]

theorem stripSecrets_cloneSecrets (s : SecretsSection) (n : Nat) :
    stripSecrets (cloneSecrets s n).1 = stripSecrets s := by
  cases hs : s.sources with
  | none => simp [cloneSecrets, stripSecrets, cloneOptWith, hs]
  | some src => simp [cloneSecrets, stripSecrets, cloneOptWith, hs, stripSources_cloneSources]

theorem stripModels_cloneModels (ms : ModelsSection) (n : Nat) :
    stripModels (cloneModels ms n).1 = stripModels ms := by
  cases hp : ms.providers with
  | none => simp [cloneModels, stripModels, cloneOptWith, hp]
  | some nv => simp [cloneModels, stripModels, cloneOptWith, hp, stripNamedVals_cloneNamedVals]

theorem stripChannels_cloneChannels (c : ChannelsSection) (n : Nat) :
    stripChannels (cloneChannels c n).1 = stripChannels c := by
  cases hg : c.googlechat with
  | none => simp [cloneChannels, stripChannels, cloneOptWith, hg]
  | some gc => simp [cloneChannels, stripChannels, cloneOptWith, hg, stripVal_cloneVal]

/-- `structuredClone` of a configuration is deep-equal to the original. -/
theorem stripConfig_cloneConfig (c : OpenClawConfig) (n : Nat) :
    stripConfig (cloneConfig c n).1 = stripConfig c := by
  simp only [cloneConfig, stripConfig, OpenClawConfig.mk.injEq, true_and]
  refine ⟨?_, ?_, ?_, ?_⟩
  · cases c.models <;> simp [cloneOptWith, stripModels_cloneModels]
  · cases c.channels <;> simp [cloneOptWith, stripChannels_cloneChannels]
  · cases c.secrets <;> simp [cloneOptWith, stripSecrets_cloneSecrets]
  · exact stripFields_cloneFields _ _

theorem noSecretRefsConfig_stripConfig (c : OpenClawConfig) :
    noSecretRefsConfig (stripConfig c) = noSecretRefsConfig c := by
  simp only [noSecretRefsConfig, stripConfig]
  have h1 : (match (c.models.map stripModels : Option ModelsSection) with
      | some ms =>
        match ms.providers with
        | some nv => providerEntriesNoRefs nv.entries
        | none => true
      | none => true)
      = (match c.models with
      | some ms =>
        match ms.providers with
        | some nv => providerEntriesNoRefs nv.entries
        | none => true
      | none => true) := by
    cases c.models with
    | none => rfl
    | some ms =>
      rcases hp : ms.providers with _ | nv <;>
        simp [stripModels, hp, stripNamedVals, providerEntriesNoRefs_stripFields]
  have h2 : (match (c.channels.map stripChannels : Option ChannelsSection) with
      | some ch =>
        match ch.googlechat with
        | some gc => gcValueNoRefs gc
        | none => true
      | none => true)
      = (match c.channels with
      | some ch =>
        match ch.googlechat with
        | some gc => gcValueNoRefs gc
        | none => true
      | none => true) := by
    cases c.channels with
    | none => rfl
    | some ch =>
      rcases hg : ch.googlechat with _ | gc <;>
        simp [stripChannels, hg, gcValueNoRefs_stripVal]
  rw [h1, h2]

theorem resolveProviderEntry_noref (pid : String) (p : AVal) (ctx : ResolverContext)
    (ext : ExtWorld) (st : RState) (h : refOf (getField p "apiKey") = none) :
    resolveProviderEntry pid p ctx ext st = (.ok p, st) := by
  simp [resolveProviderEntry, h]

theorem resolveProvidersList_norefs (entries : List (String × AVal)) (ctx : ResolverContext)
    (ext : ExtWorld) (st : RState) (h : providerEntriesNoRefs entries = true) :
    resolveProvidersList entries ctx ext st = (.ok entries, st) := by
  induction entries with
  | nil => rfl
  | cons kv rest ih =>
    obtain ⟨key, v⟩ := kv
    simp only [providerEntriesNoRefs, List.all_cons, Bool.and_eq_true,
      Option.isNone_iff_eq_none] at h
    simp [resolveProvidersList, resolveProviderEntry_noref key v ctx ext st h.1, ih h.2]

theorem resolveGCSA_noref (t : AVal) (path : String) (ctx : ResolverContext) (ext : ExtWorld)
    (st : RState) (ws : List SecretResolverWarning) (h : gcTargetNoRefs t = true) :
    resolveGoogleChatServiceAccount t path ctx ext st ws = (.ok t, st, ws) := by
  simp only [gcTargetNoRefs, Bool.and_eq_true, Option.isNone_iff_eq_none] at h
  simp [resolveGoogleChatServiceAccount, h.1, h.2, Option.orElse]

theorem resolveGoogleChatAccounts_norefs (entries : List (String × AVal))
    (ctx : ResolverContext) (ext : ExtWorld) (st : RState)
    (ws : List SecretResolverWarning) (h : gcAccountsNoRefs entries = true) :
    resolveGoogleChatAccounts entries ctx ext st ws = (.ok entries, st, ws) := by
  induction entries with
  | nil => rfl
  | cons kv rest ih =>
    obtain ⟨key, v⟩ := kv
    simp only [gcAccountsNoRefs, List.all_cons, Bool.and_eq_true, Bool.or_eq_true,
      Bool.not_eq_true'] at h
    by_cases hrec : isRecordV v = true
    · have hT : gcTargetNoRefs v = true := by
        rcases h.1 with h1 | h1
        · rw [hrec] at h1; cases h1
        · exact h1
      simp [resolveGoogleChatAccounts, hrec,
        resolveGCSA_noref v ("channels.googlechat.accounts." ++ key) ctx ext st ws hT, ih h.2]
    · simp [resolveGoogleChatAccounts, hrec, ih h.2]

theorem resolveConfigProvidersPhase_norefs (c : OpenClawConfig) (ctx : ResolverContext)
    (ext : ExtWorld) (st : RState)
    (h : (match c.models with
        | some ms =>
          match ms.providers with
          | some nv => providerEntriesNoRefs nv.entries
          | none => true
        | none => true) = true) :
    resolveConfigProvidersPhase c ctx ext st = (.ok c, st) := by
  obtain ⟨addr, models, channels, secrets, extra⟩ := c
  cases models with
  | none => rfl
  | some ms =>
    obtain ⟨maddr, providers⟩ := ms
    cases providers with
    | none => rfl
    | some nv =>
      obtain ⟨nvaddr, entries⟩ := nv
      simp only at h
      simp [resolveConfigProvidersPhase, resolveProvidersList_norefs entries ctx ext st h]

theorem resolveConfigGoogleChatPhase_norefs (c : OpenClawConfig) (ctx : ResolverContext)
    (ext : ExtWorld) (st : RState) (ws : List SecretResolverWarning)
    (h : (match c.channels with
        | some ch =>
          match ch.googlechat with
          | some gc => gcValueNoRefs gc
          | none => true
        | none => true) = true) :
    resolveConfigGoogleChatPhase c ctx ext st ws = (.ok c, st, ws) := by
  obtain ⟨addr, models, channels, secrets, extra⟩ := c
  cases channels with
  | none => rfl
  | some ch =>
    obtain ⟨caddr, googlechat⟩ := ch
    cases googlechat with
    | none => rfl
    | some gc =>
      simp only at h
      by_cases ht : truthy gc = true
      · simp only [gcValueNoRefs, ht, Bool.not_true, Bool.false_or, Bool.and_eq_true] at h
        simp only [resolveConfigGoogleChatPhase, ht, if_true,
          resolveGCSA_noref gc "channels.googlechat" ctx ext st ws h.1]
        cases ha : getField gc "accounts" with
        | none => simp [ha]
        | some w =>
          cases w with
          | vobj aAddr accs =>
            have haccs : gcAccountsNoRefs accs = true := by
              have := h.2
              rw [ha] at this
              exact this
            simp [ha, resolveGoogleChatAccounts_norefs accs ctx ext st ws haccs,
              setField_getField_self gc "accounts" (.vobj aAddr accs) ha]
          | vnull => simp [ha]
          | vbool b => simp [ha]
          | vnum m => simp [ha]
          | vstr s => simp [ha]
          | varr aAddr es => simp [ha]
      · simp [resolveConfigGoogleChatPhase, ht]

/-- Claim C7: resolving a configuration that contains no secret references in
any walked field (provider API keys, googlechat service-account fields)
returns the deep clone of the input unchanged — a `ResolvedConfig` deep-equal
to the input — and appends zero warnings. -/
theorem C7_no_refs_identity (config : OpenClawConfig) (ctx : ResolverContext) (ext : ExtWorld)
    (st : RState) (ws : List SecretResolverWarning) (h : noSecretRefsConfig config = true) :
    (resolveConfigSecretRefs config ctx ext st ws).1
      = .ok (cloneConfig config st.nextAddr).1 ∧
    stripConfig (cloneConfig config st.nextAddr).1 = stripConfig config ∧
    (resolveConfigSecretRefs config ctx ext st ws).2.2 = ws := by
  have hclone : noSecretRefsConfig (cloneConfig config st.nextAddr).1 = true := by
    rw [← noSecretRefsConfig_stripConfig, stripConfig_cloneConfig,
      noSecretRefsConfig_stripConfig]
    exact h
  rw [noSecretRefsConfig, Bool.and_eq_true] at hclone
  have hprov := resolveConfigProvidersPhase_norefs (cloneConfig config st.nextAddr).1 ctx ext
    { st with nextAddr := (cloneConfig config st.nextAddr).2 } hclone.1
  have hgc := resolveConfigGoogleChatPhase_norefs (cloneConfig config st.nextAddr).1 ctx ext
    { st with nextAddr := (cloneConfig config st.nextAddr).2 } ws hclone.2
  refine ⟨?_, stripConfig_cloneConfig config st.nextAddr, ?_⟩ <;>
    simp [resolveConfigSecretRefs, hprov, hgc]

/-- Witness for C7: a concrete configuration with a plaintext provider key, a
googlechat channel with a plaintext service account and one sub-account, and
a sops file source: the walk returns its clone unchanged with no warnings. -/
theorem C7_no_refs_identity_witness :
    noSecretRefsConfig
      ⟨0, some ⟨1, some ⟨2, [("acme", .vobj 3 [("apiKey", .vstr "sk-plain")])]⟩⟩,
        some ⟨4, some (.vobj 5 [("serviceAccount", .vstr "sa.json"),
          ("accounts", .vobj 6 [("work", .vobj 7 [("serviceAccount", .vstr "w.json")])])])⟩,
        some ⟨8, some ⟨9, some sopsFileSource⟩⟩, [("gateway", .vobj 10 [])]⟩ = true ∧
    (resolveConfigSecretRefs
        ⟨0, some ⟨1, some ⟨2, [("acme", .vobj 3 [("apiKey", .vstr "sk-plain")])]⟩⟩,
          some ⟨4, some (.vobj 5 [("serviceAccount", .vstr "sa.json"),
            ("accounts", .vobj 6 [("work", .vobj 7 [("serviceAccount", .vstr "w.json")])])])⟩,
          some ⟨8, some ⟨9, some sopsFileSource⟩⟩, [("gateway", .vobj 10 [])]⟩
        sampleCtx sampleExt rstate0 []).2.2 = [] := by
  refine ⟨by decide, ?_⟩
  exact (C7_no_refs_identity _ sampleCtx sampleExt rstate0 [] (by decide)).2.2

theorem cloneOptVal_counter_le (o : Option AVal) (n : Nat) :
    n ≤ (cloneOptWith cloneVal o n).2 := by
  cases o with
  | none => exact Nat.le_refl _
  | some v => exact cloneVal_counter_le v n

theorem cloneProfile_counter_le (p : AuthProfile) (n : Nat) : n ≤ (cloneProfile p n).2 := by
  cases p with
  | apiKeyProf a key keyRef rest =>
    simp only [cloneProfile]
    exact Nat.le_trans (Nat.le_succ n) (Nat.le_trans (cloneOptVal_counter_le keyRef (n + 1))
      (cloneFields_counter_le rest _))
  | tokenProf a token tokenRef rest =>
    simp only [cloneProfile]
    exact Nat.le_trans (Nat.le_succ n) (Nat.le_trans (cloneOptVal_counter_le tokenRef (n + 1))
      (cloneFields_counter_le rest _))
  | otherProf a t rest =>
    simp only [cloneProfile]
    exact Nat.le_trans (Nat.le_succ n) (cloneFields_counter_le rest _)

theorem cloneProfilesList_counter_le (ps : List (String × AuthProfile)) (n : Nat) :
    n ≤ (cloneProfilesList ps n).2 := by
  induction ps generalizing n with
  | nil => exact Nat.le_refl _
  | cons kv rest ih =>
    obtain ⟨k, p⟩ := kv
    simp only [cloneProfilesList]
    exact Nat.le_trans (cloneProfile_counter_le p n) (ih _)

theorem cloneStore_counter_le (s : AuthProfileStore) (n : Nat) : n ≤ (cloneStore s n).2 := by
  simp only [cloneStore]
  exact Nat.le_trans (Nat.le_add_right n 2) (cloneProfilesList_counter_le s.profiles (n + 2))

theorem cloneEntry_counter_le (e : AuthStoreEntry) (n : Nat) : n ≤ (cloneEntry e n).2 := by
  simp only [cloneEntry]
  exact Nat.le_trans (Nat.le_succ n) (cloneStore_counter_le e.store (n + 1))

theorem cloneEntriesList_counter_le (es : List AuthStoreEntry) (n : Nat) :
    n ≤ (cloneEntriesList es n).2 := by
  induction es generalizing n with
  | nil => exact Nat.le_refl _
  | cons e rest ih =>
    simp only [cloneEntriesList]
    exact Nat.le_trans (cloneEntry_counter_le e n) (ih _)

theorem cloneWarningsList_counter_le (ws : List SecretResolverWarning) (n : Nat) :
    n ≤ (cloneWarningsList ws n).2 := by
  induction ws generalizing n with
  | nil => exact Nat.le_refl _
  | cons w rest ih =>
    simp only [cloneWarningsList, cloneWarning]
    exact Nat.le_trans (Nat.le_succ n) (ih _)

theorem cloneNamedVals_counter_le (nv : NamedVals) (n : Nat) : n ≤ (cloneNamedVals nv n).2 := by
  simp only [cloneNamedVals]
  exact Nat.le_trans (Nat.le_succ n) (cloneFields_counter_le nv.entries (n + 1))

theorem cloneModels_counter_le (ms : ModelsSection) (n : Nat) : n ≤ (cloneModels ms n).2 := by
  simp only [cloneModels]
  rcases hp : ms.providers with _ | nv
  · simp [cloneOptWith]
  · simp only [cloneOptWith]
    exact Nat.le_trans (Nat.le_succ n) (cloneNamedVals_counter_le nv (n + 1))

theorem cloneChannels_counter_le (c : ChannelsSection) (n : Nat) : n ≤ (cloneChannels c n).2 := by
  simp only [cloneChannels]
  rcases hg : c.googlechat with _ | gc
  · simp [cloneOptWith]
  · simp only [cloneOptWith]
    exact Nat.le_trans (Nat.le_succ n) (cloneVal_counter_le gc (n + 1))

theorem cloneSources_counter_le (s : SourcesSection) (n : Nat) : n ≤ (cloneSources s n).2 := by
  simp only [cloneSources]
  rcases hf : s.file with _ | fsrc
  · simp [cloneOptWith]
  · simp only [cloneOptWith, cloneFileSource]
    omega

theorem cloneSecrets_counter_le (s : SecretsSection) (n : Nat) : n ≤ (cloneSecrets s n).2 := by
  simp only [cloneSecrets]
  rcases hs : s.sources with _ | src
  · simp [cloneOptWith]
  · simp only [cloneOptWith]
    exact Nat.le_trans (Nat.le_succ n) (cloneSources_counter_le src (n + 1))

theorem cloneConfig_counter_le (c : OpenClawConfig) (n : Nat) : n ≤ (cloneConfig c n).2 := by
  simp only [cloneConfig]
  have h1 : n + 1 ≤ (cloneOptWith cloneModels c.models (n + 1)).2 := by
    rcases hm : c.models with _ | ms
    · simp [cloneOptWith]
    · simp only [cloneOptWith]
      exact cloneModels_counter_le ms (n + 1)
  have h2 : (cloneOptWith cloneModels c.models (n + 1)).2
      ≤ (cloneOptWith cloneChannels c.channels (cloneOptWith cloneModels c.models (n + 1)).2).2 := by
    rcases hc : c.channels with _ | ch
    · simp [cloneOptWith]
    · simp only [cloneOptWith]
      exact cloneChannels_counter_le ch _
  have h3 : ∀ m, m ≤ (cloneOptWith cloneSecrets c.secrets m).2 := by
    intro m
    rcases hs : c.secrets with _ | s
    · simp [cloneOptWith]
    · simp only [cloneOptWith]
      exact cloneSecrets_counter_le s m
  have h4 : ∀ m, m ≤ (cloneFields c.extra m).2 := fun m => cloneFields_counter_le c.extra m
  have := Nat.le_trans (Nat.le_trans h1 h2) (Nat.le_trans (h3 _) (h4 _))
  omega

theorem cloneSnapshot_counter_le (s : PreparedSecretsRuntimeSnapshot) (n : Nat) :
    n ≤ (cloneSnapshot s n).2 := by
  simp only [cloneSnapshot]
  have h1 := cloneConfig_counter_le s.sourceConfig (n + 1)
  have h2 := cloneConfig_counter_le s.config (cloneConfig s.sourceConfig (n + 1)).2
  have h3 := cloneEntriesList_counter_le s.authStores
    ((cloneConfig s.config (cloneConfig s.sourceConfig (n + 1)).2).2 + 1)
  have h4 := cloneWarningsList_counter_le s.warnings
    ((cloneEntriesList s.authStores
      ((cloneConfig s.config (cloneConfig s.sourceConfig (n + 1)).2).2 + 1)).2 + 1)
  omega

theorem cloneOptVal_addrs_bound (o : Option AVal) (n a : Nat)
    (h : a ∈ ((cloneOptWith cloneVal o n).1.map valAddrs).getD []) :
    n ≤ a ∧ a < (cloneOptWith cloneVal o n).2 := by
  cases o with
  | none => simp [cloneOptWith] at h
  | some v =>
    simp only [cloneOptWith, Option.map_some, Option.getD_some] at h
    exact cloneVal_addrs_bound v n a h

theorem cloneProfile_addrs_bound (p : AuthProfile) (n a : Nat)
    (h : a ∈ profileAddrs (cloneProfile p n).1) : n ≤ a ∧ a < (cloneProfile p n).2 := by
  cases p with
  | apiKeyProf ad key keyRef rest =>
    simp only [cloneProfile, profileAddrs, List.mem_cons, List.mem_append] at h ⊢
    have hc1 := cloneOptVal_counter_le keyRef (n + 1)
    have hc2 := cloneFields_counter_le rest (cloneOptWith cloneVal keyRef (n + 1)).2
    rcases h with rfl | h | h
    · omega
    · have := cloneOptVal_addrs_bound keyRef (n + 1) a h
      omega
    · have := cloneFields_addrs_bound rest (cloneOptWith cloneVal keyRef (n + 1)).2 a h
      omega
  | tokenProf ad token tokenRef rest =>
    simp only [cloneProfile, profileAddrs, List.mem_cons, List.mem_append] at h ⊢
    have hc1 := cloneOptVal_counter_le tokenRef (n + 1)
    have hc2 := cloneFields_counter_le rest (cloneOptWith cloneVal tokenRef (n + 1)).2
    rcases h with rfl | h | h
    · omega
    · have := cloneOptVal_addrs_bound tokenRef (n + 1) a h
      omega
    · have := cloneFields_addrs_bound rest (cloneOptWith cloneVal tokenRef (n + 1)).2 a h
      omega
  | otherProf ad t rest =>
    simp only [cloneProfile, profileAddrs, List.mem_cons] at h ⊢
    have hc2 := cloneFields_counter_le rest (n + 1)
    rcases h with rfl | h
    · omega
    · have := cloneFields_addrs_bound rest (n + 1) a h
      omega

theorem cloneProfilesList_addrs_bound (ps : List (String × AuthProfile)) (n a : Nat)
    (h : a ∈ profilesListAddrs (cloneProfilesList ps n).1) :
    n ≤ a ∧ a < (cloneProfilesList ps n).2 := by
  induction ps generalizing n with
  | nil => simp [cloneProfilesList, profilesListAddrs] at h
  | cons kv rest ih =>
    obtain ⟨k, p⟩ := kv
    simp only [cloneProfilesList, profilesListAddrs, List.mem_append] at h
    have hc1 := cloneProfile_counter_le p n
    have hc2 := cloneProfilesList_counter_le rest (cloneProfile p n).2
    rcases h with h | h
    · have := cloneProfile_addrs_bound p n a h
      simp only [cloneProfilesList]
      omega
    · have := ih (cloneProfile p n).2 h
      simp only [cloneProfilesList]
      omega

theorem cloneStore_addrs_bound (s : AuthProfileStore) (n a : Nat)
    (h : a ∈ storeAddrs (cloneStore s n).1) : n ≤ a ∧ a < (cloneStore s n).2 := by
  simp only [cloneStore, storeAddrs, List.mem_cons] at h ⊢
  have hc := cloneProfilesList_counter_le s.profiles (n + 2)
  rcases h with rfl | rfl | h
  · omega
  · omega
  · have := cloneProfilesList_addrs_bound s.profiles (n + 2) a h
    omega

theorem cloneEntry_addrs_bound (e : AuthStoreEntry) (n a : Nat)
    (h : a ∈ entryAddrs (cloneEntry e n).1) : n ≤ a ∧ a < (cloneEntry e n).2 := by
  simp only [cloneEntry, entryAddrs, List.mem_cons] at h ⊢
  have hc := cloneStore_counter_le e.store (n + 1)
  rcases h with rfl | h
  · omega
  · have := cloneStore_addrs_bound e.store (n + 1) a h
    omega

theorem cloneEntriesList_addrs_bound (es : List AuthStoreEntry) (n a : Nat)
    (h : a ∈ entriesListAddrs (cloneEntriesList es n).1) :
    n ≤ a ∧ a < (cloneEntriesList es n).2 := by
  induction es generalizing n with
  | nil => simp [cloneEntriesList, entriesListAddrs] at h
  | cons e rest ih =>
    simp only [cloneEntriesList, entriesListAddrs, List.mem_append] at h
    have hc1 := cloneEntry_counter_le e n
    have hc2 := cloneEntriesList_counter_le rest (cloneEntry e n).2
    rcases h with h | h
    · have := cloneEntry_addrs_bound e n a h
      simp only [cloneEntriesList]
      omega
    · have := ih (cloneEntry e n).2 h
      simp only [cloneEntriesList]
      omega

theorem cloneWarningsList_addrs_bound (ws : List SecretResolverWarning) (n a : Nat)
    (h : a ∈ warningsListAddrs (cloneWarningsList ws n).1) :
    n ≤ a ∧ a < (cloneWarningsList ws n).2 := by
  induction ws generalizing n with
  | nil => simp [cloneWarningsList, warningsListAddrs] at h
  | cons w rest ih =>
    simp only [cloneWarningsList, cloneWarning, warningsListAddrs, List.mem_cons] at h
    have hc := cloneWarningsList_counter_le rest (n + 1)
    rcases h with rfl | h
    · simp only [cloneWarningsList, cloneWarning]
      omega
    · have := ih (n + 1) h
      simp only [cloneWarningsList, cloneWarning]
      omega

theorem cloneNamedVals_addrs_bound (nv : NamedVals) (n a : Nat)
    (h : a ∈ namedValsAddrs (cloneNamedVals nv n).1) : n ≤ a ∧ a < (cloneNamedVals nv n).2 := by
  simp only [cloneNamedVals, namedValsAddrs, List.mem_cons] at h ⊢
  have hc := cloneFields_counter_le nv.entries (n + 1)
  rcases h with rfl | h
  · omega
  · have := cloneFields_addrs_bound nv.entries (n + 1) a h
    omega

theorem cloneModels_addrs_bound (ms : ModelsSection) (n a : Nat)
    (h : a ∈ modelsAddrs (cloneModels ms n).1) : n ≤ a ∧ a < (cloneModels ms n).2 := by
  rcases hp : ms.providers with _ | nv
  · simp [cloneModels, modelsAddrs, cloneOptWith, hp] at h ⊢
    omega
  · simp only [cloneModels, modelsAddrs, cloneOptWith, hp, Option.map_some, Option.getD_some,
      List.mem_cons] at h ⊢
    have hc := cloneNamedVals_counter_le nv (n + 1)
    rcases h with rfl | h
    · omega
    · have := cloneNamedVals_addrs_bound nv (n + 1) a h
      omega

theorem cloneChannels_addrs_bound (c : ChannelsSection) (n a : Nat)
    (h : a ∈ channelsAddrs (cloneChannels c n).1) : n ≤ a ∧ a < (cloneChannels c n).2 := by
  rcases hg : c.googlechat with _ | gc
  · simp [cloneChannels, channelsAddrs, cloneOptWith, hg] at h ⊢
    omega
  · simp only [cloneChannels, channelsAddrs, cloneOptWith, hg, Option.map_some, Option.getD_some,
      List.mem_cons] at h ⊢
    have hc := cloneVal_counter_le gc (n + 1)
    rcases h with rfl | h
    · omega
    · have := cloneVal_addrs_bound gc (n + 1) a h
      omega

theorem cloneSources_addrs_bound (s : SourcesSection) (n a : Nat)
    (h : a ∈ sourcesAddrs (cloneSources s n).1) : n ≤ a ∧ a < (cloneSources s n).2 := by
  rcases hf : s.file with _ | fsrc
  · simp [cloneSources, sourcesAddrs, cloneOptWith, hf] at h ⊢
    omega
  · have hl : sourcesAddrs (cloneSources s n).1 = [n, n + 1] := by
      simp [cloneSources, sourcesAddrs, cloneOptWith, cloneFileSource, hf, fileSourceAddrs]
    have h2 : (cloneSources s n).2 = n + 2 := by
      simp [cloneSources, cloneOptWith, cloneFileSource, hf]
    rw [hl] at h
    rw [h2]
    simp only [List.mem_cons, List.mem_singleton, List.not_mem_nil, or_false] at h
    omega

theorem cloneSecrets_addrs_bound (s : SecretsSection) (n a : Nat)
    (h : a ∈ secretsAddrs (cloneSecrets s n).1) : n ≤ a ∧ a < (cloneSecrets s n).2 := by
  rcases hs : s.sources with _ | src
  · simp [cloneSecrets, secretsAddrs, cloneOptWith, hs] at h ⊢
    omega
  · simp only [cloneSecrets, secretsAddrs, cloneOptWith, hs, Option.map_some, Option.getD_some,
      List.mem_cons] at h ⊢
    have hc := cloneSources_counter_le src (n + 1)
    rcases h with rfl | h
    · omega
    · have := cloneSources_addrs_bound src (n + 1) a h
      omega

theorem cloneConfig_addrs_bound (c : OpenClawConfig) (n a : Nat)
    (h : a ∈ configAddrs (cloneConfig c n).1) : n ≤ a ∧ a < (cloneConfig c n).2 := by
  simp only [cloneConfig, configAddrs, List.mem_cons, List.mem_append] at h ⊢
  have hm : ∀ b, b ∈ ((cloneOptWith cloneModels c.models (n + 1)).1.map modelsAddrs).getD [] →
      n + 1 ≤ b ∧ b < (cloneOptWith cloneModels c.models (n + 1)).2 := by
    intro b hb
    rcases hmm : c.models with _ | ms
    · simp [cloneOptWith, hmm] at hb
    · simp only [cloneOptWith, hmm, Option.map_some, Option.getD_some] at hb ⊢
      exact cloneModels_addrs_bound ms (n + 1) b hb
  have hch : ∀ m b, b ∈ ((cloneOptWith cloneChannels c.channels m).1.map channelsAddrs).getD []
      → m ≤ b ∧ b < (cloneOptWith cloneChannels c.channels m).2 := by
    intro m b hb
    rcases hcc : c.channels with _ | ch
    · simp [cloneOptWith, hcc] at hb
    · simp only [cloneOptWith, hcc, Option.map_some, Option.getD_some] at hb ⊢
      exact cloneChannels_addrs_bound ch m b hb
  have hse : ∀ m b, b ∈ ((cloneOptWith cloneSecrets c.secrets m).1.map secretsAddrs).getD []
      → m ≤ b ∧ b < (cloneOptWith cloneSecrets c.secrets m).2 := by
    intro m b hb
    rcases hss : c.secrets with _ | s
    · simp [cloneOptWith, hss] at hb
    · simp only [cloneOptWith, hss, Option.map_some, Option.getD_some] at hb ⊢
      exact cloneSecrets_addrs_bound s m b hb
  have hc1 : n + 1 ≤ (cloneOptWith cloneModels c.models (n + 1)).2 := by
    rcases hmm : c.models with _ | ms
    · simp [cloneOptWith, hmm]
    · simp only [cloneOptWith, hmm]
      exact cloneModels_counter_le ms (n + 1)
  have hc2 : ∀ m, m ≤ (cloneOptWith cloneChannels c.channels m).2 := by
    intro m
    rcases hcc : c.channels with _ | ch
    · simp [cloneOptWith, hcc]
    · simp only [cloneOptWith, hcc]
      exact cloneChannels_counter_le ch m
  have hc3 : ∀ m, m ≤ (cloneOptWith cloneSecrets c.secrets m).2 := by
    intro m
    rcases hss : c.secrets with _ | s
    · simp [cloneOptWith, hss]
    · simp only [cloneOptWith, hss]
      exact cloneSecrets_counter_le s m
  have hc4 : ∀ m, m ≤ (cloneFields c.extra m).2 := fun m => cloneFields_counter_le c.extra m
  rcases h with rfl | (((h | h) | h) | h)
  · have hb := Nat.le_trans hc1 (Nat.le_trans (hc2 _) (Nat.le_trans (hc3 _) (hc4 _)))
    omega
  · have ha := hm a h
    have hb := Nat.le_trans (hc2 (cloneOptWith cloneModels c.models (n + 1)).2)
      (Nat.le_trans (hc3 _) (hc4 _))
    omega
  · have ha := hch (cloneOptWith cloneModels c.models (n + 1)).2 a h
    have hb := Nat.le_trans (hc3 (cloneOptWith cloneChannels c.channels
      (cloneOptWith cloneModels c.models (n + 1)).2).2) (hc4 _)
    omega
  · have ha := hse (cloneOptWith cloneChannels c.channels
      (cloneOptWith cloneModels c.models (n + 1)).2).2 a h
    have hb := hc4 (cloneOptWith cloneSecrets c.secrets (cloneOptWith cloneChannels c.channels
      (cloneOptWith cloneModels c.models (n + 1)).2).2).2
    have hb2 := hc2 (cloneOptWith cloneModels c.models (n + 1)).2
    omega
  · have ha := cloneFields_addrs_bound c.extra (cloneOptWith cloneSecrets c.secrets
      (cloneOptWith cloneChannels c.channels
        (cloneOptWith cloneModels c.models (n + 1)).2).2).2 a h
    have hb := Nat.le_trans hc1 (Nat.le_trans (hc2 _) (hc3 _))
    omega

theorem cloneSnapshot_addrs_bound (s : PreparedSecretsRuntimeSnapshot) (n a : Nat)
    (h : a ∈ snapshotAddrs (cloneSnapshot s n).1) : n ≤ a ∧ a < (cloneSnapshot s n).2 := by
  simp only [cloneSnapshot, snapshotAddrs, List.mem_cons, List.mem_append] at h ⊢
  have hc1 := cloneConfig_counter_le s.sourceConfig (n + 1)
  have hc2 := cloneConfig_counter_le s.config (cloneConfig s.sourceConfig (n + 1)).2
  have hc3 := cloneEntriesList_counter_le s.authStores
    ((cloneConfig s.config (cloneConfig s.sourceConfig (n + 1)).2).2 + 1)
  have hc4 := cloneWarningsList_counter_le s.warnings
    ((cloneEntriesList s.authStores
      ((cloneConfig s.config (cloneConfig s.sourceConfig (n + 1)).2).2 + 1)).2 + 1)
  rcases h with rfl | rfl | rfl | (((h | h) | h) | h)
  · omega
  · omega
  · omega
  · have := cloneConfig_addrs_bound s.sourceConfig (n + 1) a h
    omega
  · have := cloneConfig_addrs_bound s.config (cloneConfig s.sourceConfig (n + 1)).2 a h
    omega
  · have := cloneEntriesList_addrs_bound s.authStores
      ((cloneConfig s.config (cloneConfig s.sourceConfig (n + 1)).2).2 + 1) a h
    omega
  · have := cloneWarningsList_addrs_bound s.warnings
      ((cloneEntriesList s.authStores
        ((cloneConfig s.config (cloneConfig s.sourceConfig (n + 1)).2).2 + 1)).2 + 1) a h
    omega

theorem stripOptVal_cloneOptVal (o : Option AVal) (n : Nat) :
    (cloneOptWith cloneVal o n).1.map stripVal = o.map stripVal := by
  cases o with
  | none => rfl
  | some v => simp [cloneOptWith, stripVal_cloneVal]

theorem stripProfile_cloneProfile (p : AuthProfile) (n : Nat) :
    stripProfile (cloneProfile p n).1 = stripProfile p := by
  cases p with
  | apiKeyProf a key keyRef rest =>
    simp [cloneProfile, stripProfile, stripOptVal_cloneOptVal, stripFields_cloneFields]
  | tokenProf a token tokenRef rest =>
    simp [cloneProfile, stripProfile, stripOptVal_cloneOptVal, stripFields_cloneFields]
  | otherProf a t rest =>
    simp [cloneProfile, stripProfile, stripFields_cloneFields]

theorem stripProfilesList_cloneProfilesList (ps : List (String × AuthProfile)) (n : Nat) :
    stripProfilesList (cloneProfilesList ps n).1 = stripProfilesList ps := by
  induction ps generalizing n with
  | nil => rfl
  | cons kv rest ih =>
    obtain ⟨k, p⟩ := kv
    simp [cloneProfilesList, stripProfilesList, stripProfile_cloneProfile, ih]

theorem stripStore_cloneStore (s : AuthProfileStore) (n : Nat) :
    stripStore (cloneStore s n).1 = stripStore s := by
  simp [cloneStore, stripStore, stripProfilesList_cloneProfilesList]

theorem stripEntry_cloneEntry (e : AuthStoreEntry) (n : Nat) :
    stripEntry (cloneEntry e n).1 = stripEntry e := by
  simp [cloneEntry, stripEntry, stripStore_cloneStore]

theorem stripEntries_cloneEntriesList (es : List AuthStoreEntry) (n : Nat) :
    (cloneEntriesList es n).1.map stripEntry = es.map stripEntry := by
  induction es generalizing n with
  | nil => rfl
  | cons e rest ih =>
    simp [cloneEntriesList, stripEntry_cloneEntry, ih]

theorem stripWarnings_cloneWarningsList (ws : List SecretResolverWarning) (n : Nat) :
    (cloneWarningsList ws n).1.map stripWarning = ws.map stripWarning := by
  induction ws generalizing n with
  | nil => rfl
  | cons w rest ih =>
    simp only [cloneWarningsList, cloneWarning, List.map_cons, ih]
    rfl

/-- `cloneSnapshot` is deep-equal to the original snapshot. -/
theorem stripSnapshot_cloneSnapshot (s : PreparedSecretsRuntimeSnapshot) (n : Nat) :
    stripSnapshot (cloneSnapshot s n).1 = stripSnapshot s := by
  simp [cloneSnapshot, stripSnapshot, stripConfig_cloneConfig, stripEntries_cloneEntriesList,
    stripWarnings_cloneWarningsList]

/-- Claim C8: activating a snapshot and then reading the active snapshot
returns a value deep-equal to the activated snapshot, but sharing no mutable
sub-object (no address) with the caller's snapshot nor with the stored active
snapshot — so mutating the returned value cannot affect the stored state; and
with no active snapshot, the read returns the absent marker and leaves the
counter untouched.  The freshness hypothesis states that the allocation
counter is ahead of every address of the snapshot being activated. -/
theorem C8_activate_getActive (snapshot : PreparedSecretsRuntimeSnapshot) (g : GlobalState)
    (n : Nat) (h : ∀ a ∈ snapshotAddrs snapshot, a < n) :
    (∃ s, (getActiveSecretsRuntimeSnapshot (activateSecretsRuntimeSnapshot snapshot g n).1
          (activateSecretsRuntimeSnapshot snapshot g n).2).1 = some s ∧
      stripSnapshot s = stripSnapshot snapshot ∧
      (∀ a ∈ snapshotAddrs s, a ∉ snapshotAddrs snapshot) ∧
      (∀ stored, (activateSecretsRuntimeSnapshot snapshot g n).1.activeSnapshot = some stored →
        stripSnapshot stored = stripSnapshot snapshot ∧
        ∀ a ∈ snapshotAddrs s, a ∉ snapshotAddrs stored)) ∧
    (∀ (g' : GlobalState) (m : Nat), g'.activeSnapshot = none →
      getActiveSecretsRuntimeSnapshot g' m = (none, m)) := by
  constructor
  · refine ⟨(cloneSnapshot (cloneSnapshot snapshot n).1 (cloneSnapshot snapshot n).2).1,
      rfl, ?_, ?_, ?_⟩
    · rw [stripSnapshot_cloneSnapshot, stripSnapshot_cloneSnapshot]
    · intro a ha hmem
      have hb := cloneSnapshot_addrs_bound (cloneSnapshot snapshot n).1
        (cloneSnapshot snapshot n).2 a ha
      have hn := cloneSnapshot_counter_le snapshot n
      have := h a hmem
      omega
    · intro stored hstored
      have hst : stored = (cloneSnapshot snapshot n).1 := by
        simpa [activateSecretsRuntimeSnapshot, setRuntimeConfigSnapshot,
          replaceRuntimeAuthProfileStoreSnapshots] using hstored.symm
      subst hst
      refine ⟨stripSnapshot_cloneSnapshot snapshot n, ?_⟩
      intro a ha hmem
      have hb := cloneSnapshot_addrs_bound (cloneSnapshot snapshot n).1
        (cloneSnapshot snapshot n).2 a ha
      have hb2 := cloneSnapshot_addrs_bound snapshot n a hmem
      omega
  · intro g' m hg
    simp [getActiveSecretsRuntimeSnapshot, hg]

/-- A concrete snapshot fixture for the lifecycle witnesses. -/
def snapFix : PreparedSecretsRuntimeSnapshot :=
  ⟨0, sopsConfig, sopsConfig, 10, [⟨11, "agent", ⟨12, 1, 13,
    [("p", .apiKeyProf 14 (some "k") none [])]⟩⟩], 15,
    [⟨16, "SECRETS_REF_OVERRIDES_PLAINTEXT", "x", "m"⟩]⟩

/-- Witness for C8: activating `snapFix` from counter 100 and reading back
yields a present snapshot deep-equal to it; reading with nothing active
yields the absent marker. -/
theorem C8_activate_getActive_witness :
    (∃ s, (getActiveSecretsRuntimeSnapshot (activateSecretsRuntimeSnapshot snapFix
          ⟨none, none, []⟩ 100).1 (activateSecretsRuntimeSnapshot snapFix
          ⟨none, none, []⟩ 100).2).1 = some s ∧
      stripSnapshot s = stripSnapshot snapFix) ∧
    getActiveSecretsRuntimeSnapshot ⟨none, none, []⟩ 7 = (none, 7) := by
  have h := C8_activate_getActive snapFix ⟨none, none, []⟩ 100 (by decide)
  obtain ⟨⟨s, hs1, hs2, _⟩, h2⟩ := h
  exact ⟨⟨s, hs1, hs2⟩, h2 ⟨none, none, []⟩ 7 rfl⟩

/-- All composite addresses of a value satisfy `S`. -/
def OkV (S : Nat → Prop) (v : AVal) : Prop := ∀ a ∈ valAddrs v, S a

/-- All composite addresses of an entry list satisfy `S`. -/
def OkFields (S : Nat → Prop) (fs : List (String × AVal)) : Prop := ∀ a ∈ fieldsAddrs fs, S a

/-- All composite addresses of a successful outcome satisfy `S`. -/
def OkE (S : Nat → Prop) (e : Except SecretError AVal) : Prop := ∀ v, e = .ok v → OkV S v

/-- All composite addresses of a successfully cached payload satisfy `S`. -/
def OkSt (S : Nat → Prop) (st : RState) : Prop :=
  ∀ r, st.fileSecretsPromise = some r → OkE S r

/-- All composite addresses of a configuration satisfy `S`. -/
def OkCfg (S : Nat → Prop) (c : OpenClawConfig) : Prop := ∀ a ∈ configAddrs c, S a

/-- All payloads the external decrypt facility can produce satisfy `S`. -/
def OkExt (S : Nat → Prop) (ext : ExtWorld) : Prop :=
  ∀ path t, OkE S (ext.sopsDecrypt path t)

theorem lookupField_mem_valAddrs (fs : List (String × AVal)) (k : String) (w : AVal)
    (h : lookupField fs k = some w) : ∀ a ∈ valAddrs w, a ∈ fieldsAddrs fs := by
  induction fs with
  | nil => simp [lookupField] at h
  | cons kv rest ih =>
    obtain ⟨key, v⟩ := kv
    by_cases hk : key = k
    · have hv : v = w := by simpa [lookupField, hk] using h
      subst hv
      intro a ha
      simp only [fieldsAddrs, List.mem_append]
      exact Or.inl ha
    · have h2 : lookupField rest k = some w := by simpa [lookupField, hk] using h
      intro a ha
      simp only [fieldsAddrs, List.mem_append]
      exact Or.inr (ih h2 a ha)

theorem readJsonPointer_go_sub_addrs (ptr : String) (segs : List String) (payload v : AVal)
    (h : readJsonPointer.go ptr payload segs = .ok v) :
    ∀ a ∈ valAddrs v, a ∈ valAddrs payload := by
  induction segs generalizing payload with
  | nil =>
    have hv : payload = v := by simpa [readJsonPointer.go] using h
    subst hv
    exact fun a ha => ha
  | cons s rest ih =>
    cases payload with
    | vobj ad fs =>
      cases hl : lookupField fs s with
      | none => simp [readJsonPointer.go, hl] at h
      | some w =>
        have h2 : readJsonPointer.go ptr w rest = .ok v := by
          simpa [readJsonPointer.go, hl] using h
        intro a ha
        simp only [valAddrs, List.mem_cons]
        exact Or.inr (lookupField_mem_valAddrs fs s w hl a (ih w h2 a ha))
    | vnull => simp [readJsonPointer.go] at h
    | vbool b => simp [readJsonPointer.go] at h
    | vnum m => simp [readJsonPointer.go] at h
    | vstr t => simp [readJsonPointer.go] at h
    | varr ad es => simp [readJsonPointer.go] at h

theorem readJsonPointer_sub_addrs (payload : AVal) (ptr : String) (v : AVal)
    (h : readJsonPointer payload ptr = .ok v) : ∀ a ∈ valAddrs v, a ∈ valAddrs payload :=
  readJsonPointer_go_sub_addrs ptr (pointerSegments ptr) payload v h

theorem decryptSopsFile_state (config : OpenClawConfig) (ext : ExtWorld) (st : RState) :
    (decryptSopsFile config ext st).2.fileSecretsPromise = st.fileSecretsPromise ∧
    (decryptSopsFile config ext st).2.nextAddr = st.nextAddr := by
  simp only [decryptSopsFile]
  repeat' split
  all_goals exact ⟨rfl, rfl⟩

theorem decryptSopsFile_OkE {S : Nat → Prop} (config : OpenClawConfig) (ext : ExtWorld)
    (st : RState) (hext : OkExt S ext) : OkE S (decryptSopsFile config ext st).1 := by
  simp only [decryptSopsFile]
  rcases hf : configFileSource config with _ | fsrc
  · intro v hv; cases hv
  · by_cases ht : fsrc.type = "sops"
    · simp only [ht, if_true]
      exact hext _ _
    · simp only [ht, if_false]
      intro v hv; cases hv

theorem bindJP_OkE {S : Nat → Prop} (e : Except SecretError AVal) (id : String)
    (he : OkE S e) : OkE S (e.bind (fun payload => readJsonPointer payload id)) := by
  intro v hv
  cases e with
  | error err => cases hv
  | ok payload =>
    simp only [Except.bind] at hv
    intro a ha
    exact he payload rfl a (readJsonPointer_sub_addrs payload id v hv a ha)

/-- Address tracking through a single reference resolution: with an external
decrypt facility and a cache slot whose payloads satisfy `S`, the outcome and
the new cache slot satisfy `S`, and the allocation counter is untouched. -/
theorem rsv_OkS {S : Nat → Prop} (ref : SecretRef) (ctx : ResolverContext) (ext : ExtWorld)
    (st : RState) (hext : OkExt S ext) (hst : OkSt S st) :
    OkE S (resolveSecretRefValue ref ctx ext st).1 ∧
    OkSt S (resolveSecretRefValue ref ctx ext st).2 ∧
    (resolveSecretRefValue ref ctx ext st).2.nextAddr = st.nextAddr := by
  by_cases h1 : jsTrim ref.id = ""
  · refine ⟨?_, ?_, ?_⟩ <;> simp [resolveSecretRefValue, h1]
    · intro v hv; cases hv
    · exact hst
  · by_cases h2 : ref.source = "env"
    · cases henv : ctx.env (jsTrim ref.id) with
      | none =>
        refine ⟨?_, ?_, ?_⟩ <;> simp [resolveSecretRefValue, h1, h2, henv]
        · intro v hv; cases hv
        · exact hst
      | some s =>
        by_cases hs : 0 < strLen (jsTrim s)
        · refine ⟨?_, ?_, ?_⟩ <;> simp [resolveSecretRefValue, h1, h2, henv, hs]
          · intro v hv
            cases hv
            intro a ha
            simp [valAddrs] at ha
          · exact hst
        · refine ⟨?_, ?_, ?_⟩ <;> simp [resolveSecretRefValue, h1, h2, henv, hs]
          · intro v hv; cases hv
          · exact hst
    · by_cases h3 : ref.source = "file"
      · cases hc : st.fileSecretsPromise with
        | some cached =>
          refine ⟨?_, ?_, ?_⟩ <;> simp [resolveSecretRefValue, h1, h2, h3, hc]
          · exact bindJP_OkE cached (jsTrim ref.id) (hst cached hc)
          · intro r hr
            exact hst r hr
        | none =>
          have hds := decryptSopsFile_state ctx.config ext st
          refine ⟨?_, ?_, ?_⟩ <;> simp [resolveSecretRefValue, h1, h2, h3, hc]
          · exact bindJP_OkE _ (jsTrim ref.id) (decryptSopsFile_OkE ctx.config ext st hext)
          · intro r hr
            have : r = (decryptSopsFile ctx.config ext st).1 := by
              simpa using hr.symm
            subst this
            exact decryptSopsFile_OkE ctx.config ext st hext
          · exact hds.2
      · refine ⟨?_, ?_, ?_⟩ <;> simp [resolveSecretRefValue, h1, h2, h3]
        · intro v hv; cases hv
        · exact hst

theorem setFields_addrs_sub (fs : List (String × AVal)) (k : String) (v : AVal) :
    ∀ a ∈ fieldsAddrs (setFields fs k v), a ∈ fieldsAddrs fs ∨ a ∈ valAddrs v := by
  induction fs with
  | nil =>
    intro a ha
    simp only [setFields, fieldsAddrs, List.append_nil] at ha
    exact Or.inr ha
  | cons kv rest ih =>
    obtain ⟨key, w⟩ := kv
    intro a ha
    by_cases hk : key = k
    · simp only [setFields, hk, if_pos rfl, fieldsAddrs, List.mem_append] at ha
      rcases ha with ha | ha
      · exact Or.inr ha
      · exact Or.inl (by simp only [fieldsAddrs, List.mem_append]; exact Or.inr ha)
    · simp only [setFields, hk, if_false, if_neg hk, fieldsAddrs, List.mem_append] at ha
      rcases ha with ha | ha
      · exact Or.inl (by simp only [fieldsAddrs, List.mem_append]; exact Or.inl ha)
      · rcases ih a ha with h | h
        · exact Or.inl (by simp only [fieldsAddrs, List.mem_append]; exact Or.inr h)
        · exact Or.inr h

theorem setField_OkV {S : Nat → Prop} (o : AVal) (k : String) (v : AVal)
    (ho : OkV S o) (hv : OkV S v) : OkV S (setField o k v) := by
  cases o with
  | vobj ad fs =>
    intro a ha
    simp only [setField, valAddrs, List.mem_cons] at ha
    rcases ha with rfl | ha
    · exact ho a (by simp [valAddrs])
    · rcases setFields_addrs_sub fs k v a ha with h | h
      · exact ho a (by simp only [valAddrs, List.mem_cons]; exact Or.inr h)
      · exact hv a h
  | vnull => exact ho
  | vbool b => exact ho
  | vnum m => exact ho
  | vstr s => exact ho
  | varr ad es => exact ho

theorem OkFields_cons {S : Nat → Prop} (k : String) (v : AVal) (rest : List (String × AVal)) :
    OkFields S ((k, v) :: rest) ↔ OkV S v ∧ OkFields S rest := by
  simp [OkFields, OkV, fieldsAddrs, List.mem_append, or_imp, forall_and]

theorem getField_sub_addrs (o : AVal) (k : String) (w : AVal) (h : getField o k = some w) :
    ∀ a ∈ valAddrs w, a ∈ valAddrs o := by
  cases o <;> simp [getField] at h
  next ad fs =>
  intro a ha
  simp only [valAddrs, List.mem_cons]
  exact Or.inr (lookupField_mem_valAddrs fs k w h a ha)

theorem gcsa_OkS {S : Nat → Prop} (target : AVal) (path : String) (ctx : ResolverContext)
    (ext : ExtWorld) (st : RState) (ws : List SecretResolverWarning)
    (hext : OkExt S ext) (hst : OkSt S st) (htarget : OkV S target) :
    (∀ t', (resolveGoogleChatServiceAccount target path ctx ext st ws).1 = .ok t' → OkV S t') ∧
    OkSt S (resolveGoogleChatServiceAccount target path ctx ext st ws).2.1 := by
  rcases horl : (refOf (getField target "serviceAccountRef")).orElse
      (fun _ => refOf (getField target "serviceAccount")) with _ | ref
  · constructor
    · intro t' ht'
      have heq : target = t' := by
        simpa [resolveGoogleChatServiceAccount, horl] using ht'
      exact heq ▸ htarget
    · simpa [resolveGoogleChatServiceAccount, horl] using hst
  · by_cases hw : ((refOf (getField target "serviceAccountRef")).isSome &&
        (match getField target "serviceAccount" with
         | some v => !isSecretRefV v
         | none => false)) = true
    · have hst1 : OkSt S { st with nextAddr := st.nextAddr + 1 } := fun r hr => hst r hr
      have hrok := rsv_OkS ref ctx ext { st with nextAddr := st.nextAddr + 1 } hext hst1
      cases hr : (resolveSecretRefValue ref ctx ext { st with nextAddr := st.nextAddr + 1 }).1 with
      | error e =>
        constructor
        · intro t' ht'
          simp [resolveGoogleChatServiceAccount, horl, hw, hr] at ht'
        · simp only [resolveGoogleChatServiceAccount, horl, hw, if_true, hr]
          exact hrok.2.1
      | ok v =>
        constructor
        · intro t' ht'
          have hv : setField target "serviceAccount" v = t' := by
            simpa [resolveGoogleChatServiceAccount, horl, hw, hr] using ht'
          exact hv ▸ setField_OkV target "serviceAccount" v htarget (hrok.1 v hr)
        · simp only [resolveGoogleChatServiceAccount, horl, hw, if_true, hr]
          exact hrok.2.1
    · have hrok := rsv_OkS ref ctx ext st hext hst
      cases hr : (resolveSecretRefValue ref ctx ext st).1 with
      | error e =>
        constructor
        · intro t' ht'
          simp [resolveGoogleChatServiceAccount, horl, hw, hr] at ht'
        · simp only [resolveGoogleChatServiceAccount, horl, hw, if_false, Bool.false_eq_true, hr]
          exact hrok.2.1
      | ok v =>
        constructor
        · intro t' ht'
          have hv : setField target "serviceAccount" v = t' := by
            simpa [resolveGoogleChatServiceAccount, horl, hw, hr] using ht'
          exact hv ▸ setField_OkV target "serviceAccount" v htarget (hrok.1 v hr)
        · simp only [resolveGoogleChatServiceAccount, horl, hw, if_false, Bool.false_eq_true, hr]
          exact hrok.2.1

theorem provEntry_OkS {S : Nat → Prop} (pid : String) (p : AVal) (ctx : ResolverContext)
    (ext : ExtWorld) (st : RState) (hext : OkExt S ext) (hst : OkSt S st) (hp : OkV S p) :
    (∀ p', (resolveProviderEntry pid p ctx ext st).1 = .ok p' → OkV S p') ∧
    OkSt S (resolveProviderEntry pid p ctx ext st).2 := by
  rcases hk : refOf (getField p "apiKey") with _ | r
  · constructor
    · intro p' hp'
      have heq : p = p' := by simpa [resolveProviderEntry, hk] using hp'
      exact heq ▸ hp
    · simpa [resolveProviderEntry, hk] using hst
  · have hrok := rsv_OkS r ctx ext st hext hst
    cases hr : (resolveSecretRefValue r ctx ext st).1 with
    | error e =>
      constructor
      · intro p' hp'
        simp [resolveProviderEntry, hk, hr] at hp'
      · simp only [resolveProviderEntry, hk, hr]
        exact hrok.2.1
    | ok v =>
      by_cases hv : isNonEmptyStringV v = true
      · constructor
        · intro p' hp'
          have heq : setField p "apiKey" v = p' := by
            simpa [resolveProviderEntry, hk, hr, hv] using hp'
          exact heq ▸ setField_OkV p "apiKey" v hp (hrok.1 v hr)
        · simp only [resolveProviderEntry, hk, hr, hv, if_true]
          exact hrok.2.1
      · constructor
        · intro p' hp'
          simp [resolveProviderEntry, hk, hr, hv] at hp'
        · simp only [resolveProviderEntry, hk, hr, hv, if_false, Bool.false_eq_true]
          exact hrok.2.1

theorem provList_OkS {S : Nat → Prop} (entries : List (String × AVal)) (ctx : ResolverContext)
    (ext : ExtWorld) (hext : OkExt S ext) :
    ∀ st : RState, OkSt S st → OkFields S entries →
      (∀ out, (resolveProvidersList entries ctx ext st).1 = .ok out → OkFields S out) ∧
      OkSt S (resolveProvidersList entries ctx ext st).2 := by
  induction entries with
  | nil =>
    intro st hst _
    refine ⟨?_, hst⟩
    intro out hout
    have : ([] : List (String × AVal)) = out := by simpa [resolveProvidersList] using hout
    exact this ▸ (by intro a ha; simp [fieldsAddrs] at ha)
  | cons kv rest ih =>
    intro st hst hf
    obtain ⟨k, p⟩ := kv
    rw [OkFields_cons] at hf
    have hstep := provEntry_OkS k p ctx ext st hext hst hf.1
    cases hq : (resolveProviderEntry k p ctx ext st).1 with
    | error e =>
      constructor
      · intro out hout
        simp [resolveProvidersList, hq] at hout
      · simp only [resolveProvidersList, hq]
        exact hstep.2
    | ok p' =>
      have hrest := ih (resolveProviderEntry k p ctx ext st).2 hstep.2 hf.2
      cases hr : (resolveProvidersList rest ctx ext (resolveProviderEntry k p ctx ext st).2).1 with
      | error e =>
        constructor
        · intro out hout
          simp [resolveProvidersList, hq, hr] at hout
        · simp only [resolveProvidersList, hq, hr]
          exact hrest.2
      | ok ps =>
        constructor
        · intro out hout
          have heq : (k, p') :: ps = out := by
            simpa [resolveProvidersList, hq, hr] using hout
          refine heq ▸ ?_
          rw [OkFields_cons]
          exact ⟨hstep.1 p' hq, hrest.1 ps hr⟩
        · simp only [resolveProvidersList, hq, hr]
          exact hrest.2

theorem gcAccounts_OkS {S : Nat → Prop} (entries : List (String × AVal))
    (ctx : ResolverContext) (ext : ExtWorld) (hext : OkExt S ext) :
    ∀ (st : RState) (ws : List SecretResolverWarning), OkSt S st → OkFields S entries →
      (∀ out, (resolveGoogleChatAccounts entries ctx ext st ws).1 = .ok out → OkFields S out) ∧
      OkSt S (resolveGoogleChatAccounts entries ctx ext st ws).2.1 := by
  induction entries with
  | nil =>
    intro st ws hst _
    refine ⟨?_, hst⟩
    intro out hout
    have : ([] : List (String × AVal)) = out := by simpa [resolveGoogleChatAccounts] using hout
    exact this ▸ (by intro a ha; simp [fieldsAddrs] at ha)
  | cons kv rest ih =>
    intro st ws hst hf
    obtain ⟨k, v⟩ := kv
    rw [OkFields_cons] at hf
    by_cases hrec : isRecordV v = true
    · have hstep := gcsa_OkS v ("channels.googlechat.accounts." ++ k) ctx ext st ws hext hst hf.1
      cases hq : (resolveGoogleChatServiceAccount v ("channels.googlechat.accounts." ++ k)
          ctx ext st ws).1 with
      | error e =>
        constructor
        · intro out hout
          simp [resolveGoogleChatAccounts, hrec, hq] at hout
        · simp only [resolveGoogleChatAccounts, hrec, if_true, hq]
          exact hstep.2
      | ok v' =>
        have hrest := ih (resolveGoogleChatServiceAccount v
            ("channels.googlechat.accounts." ++ k) ctx ext st ws).2.1
          (resolveGoogleChatServiceAccount v ("channels.googlechat.accounts." ++ k)
            ctx ext st ws).2.2 hstep.2 hf.2
        cases hr : (resolveGoogleChatAccounts rest ctx ext
            (resolveGoogleChatServiceAccount v ("channels.googlechat.accounts." ++ k)
              ctx ext st ws).2.1
            (resolveGoogleChatServiceAccount v ("channels.googlechat.accounts." ++ k)
              ctx ext st ws).2.2).1 with
        | error e =>
          constructor
          · intro out hout
            simp [resolveGoogleChatAccounts, hrec, hq, hr] at hout
          · simp only [resolveGoogleChatAccounts, hrec, if_true, hq, hr]
            exact hrest.2
        | ok accs =>
          constructor
          · intro out hout
            have heq : (k, v') :: accs = out := by
              simpa [resolveGoogleChatAccounts, hrec, hq, hr] using hout
            refine heq ▸ ?_
            rw [OkFields_cons]
            exact ⟨hstep.1 v' hq, hrest.1 accs hr⟩
          · simp only [resolveGoogleChatAccounts, hrec, if_true, hq, hr]
            exact hrest.2
    · have hrest := ih st ws hst hf.2
      cases hr : (resolveGoogleChatAccounts rest ctx ext st ws).1 with
      | error e =>
        constructor
        · intro out hout
          simp [resolveGoogleChatAccounts, hrec, hr] at hout
        · simp only [resolveGoogleChatAccounts, hrec, if_false, Bool.false_eq_true, hr]
          exact hrest.2
      | ok accs =>
        constructor
        · intro out hout
          have heq : (k, v) :: accs = out := by
            simpa [resolveGoogleChatAccounts, hrec, hr] using hout
          refine heq ▸ ?_
          rw [OkFields_cons]
          exact ⟨hf.1, hrest.1 accs hr⟩
        · simp only [resolveGoogleChatAccounts, hrec, if_false, Bool.false_eq_true, hr]
          exact hrest.2

theorem OkCfg_iff {S : Nat → Prop} (ad : Nat) (models : Option ModelsSection)
    (channels : Option ChannelsSection) (secrets : Option SecretsSection)
    (extra : List (String × AVal)) :
    OkCfg S ⟨ad, models, channels, secrets, extra⟩ ↔
      (S ad ∧ (∀ ms, models = some ms → ∀ a ∈ modelsAddrs ms, S a) ∧
        (∀ ch, channels = some ch → ∀ a ∈ channelsAddrs ch, S a) ∧
        (∀ s, secrets = some s → ∀ a ∈ secretsAddrs s, S a) ∧
        (∀ a ∈ fieldsAddrs extra, S a)) := by
  cases models <;> cases channels <;> cases secrets <;>
    simp [OkCfg, configAddrs, List.mem_cons, List.mem_append, or_imp, forall_and]

theorem modelsAddrs_some_mem (mad nvad : Nat) (entries : List (String × AVal)) (a : Nat) :
    a ∈ modelsAddrs ⟨mad, some ⟨nvad, entries⟩⟩ ↔
      (a = mad ∨ a = nvad ∨ a ∈ fieldsAddrs entries) := by
  simp [modelsAddrs, namedValsAddrs]

theorem channelsAddrs_some_mem (cad : Nat) (gc : AVal) (a : Nat) :
    a ∈ channelsAddrs ⟨cad, some gc⟩ ↔ (a = cad ∨ a ∈ valAddrs gc) := by
  simp [channelsAddrs]

theorem provPhase_OkS {S : Nat → Prop} (c : OpenClawConfig) (ctx : ResolverContext)
    (ext : ExtWorld) (st : RState) (hext : OkExt S ext) (hst : OkSt S st) (hc : OkCfg S c) :
    (∀ c', (resolveConfigProvidersPhase c ctx ext st).1 = .ok c' → OkCfg S c') ∧
    OkSt S (resolveConfigProvidersPhase c ctx ext st).2 := by
  obtain ⟨ad, models, channels, secrets, extra⟩ := c
  cases models with
  | none =>
    constructor
    · intro c' hc'
      have heq : (⟨ad, none, channels, secrets, extra⟩ : OpenClawConfig) = c' := by
        simpa [resolveConfigProvidersPhase] using hc'
      exact heq ▸ hc
    · simpa [resolveConfigProvidersPhase] using hst
  | some ms =>
    obtain ⟨mad, providers⟩ := ms
    cases providers with
    | none =>
      constructor
      · intro c' hc'
        have heq : (⟨ad, some ⟨mad, none⟩, channels, secrets, extra⟩ : OpenClawConfig) = c' := by
          simpa [resolveConfigProvidersPhase] using hc'
        exact heq ▸ hc
      · simpa [resolveConfigProvidersPhase] using hst
    | some nv =>
      obtain ⟨nvad, entries⟩ := nv
      rw [OkCfg_iff] at hc
      have hf : OkFields S entries := fun a ha =>
        hc.2.1 _ rfl a ((modelsAddrs_some_mem mad nvad entries a).mpr (Or.inr (Or.inr ha)))
      have hfold := provList_OkS entries ctx ext hext st hst hf
      cases hq : (resolveProvidersList entries ctx ext st).1 with
      | error e =>
        constructor
        · intro c' hc'
          simp [resolveConfigProvidersPhase, hq] at hc'
        · simp only [resolveConfigProvidersPhase, hq]
          exact hfold.2
      | ok entries' =>
        constructor
        · intro c' hc'
          have heq : (⟨ad, some ⟨mad, some ⟨nvad, entries'⟩⟩, channels, secrets, extra⟩ :
              OpenClawConfig) = c' := by
            simpa [resolveConfigProvidersPhase, hq] using hc'
          refine heq ▸ ?_
          rw [OkCfg_iff]
          refine ⟨hc.1, ?_, hc.2.2.1, hc.2.2.2.1, hc.2.2.2.2⟩
          intro ms hms a ha
          obtain rfl := Option.some.inj hms
          rcases (modelsAddrs_some_mem mad nvad entries' a).mp ha with rfl | rfl | ha
          · exact hc.2.1 _ rfl a ((modelsAddrs_some_mem a nvad entries a).mpr (Or.inl rfl))
          · exact hc.2.1 _ rfl a ((modelsAddrs_some_mem mad a entries a).mpr (Or.inr (Or.inl rfl)))
          · exact hfold.1 entries' hq a ha
        · simp only [resolveConfigProvidersPhase, hq]
          exact hfold.2

theorem gcPhase_OkS {S : Nat → Prop} (c : OpenClawConfig) (ctx : ResolverContext)
    (ext : ExtWorld) (st : RState) (ws : List SecretResolverWarning) (hext : OkExt S ext)
    (hst : OkSt S st) (hc : OkCfg S c) :
    (∀ c', (resolveConfigGoogleChatPhase c ctx ext st ws).1 = .ok c' → OkCfg S c') ∧
    OkSt S (resolveConfigGoogleChatPhase c ctx ext st ws).2.1 := by
  obtain ⟨ad, models, channels, secrets, extra⟩ := c
  cases channels with
  | none =>
    constructor
    · intro c' hc'
      have heq : (⟨ad, models, none, secrets, extra⟩ : OpenClawConfig) = c' := by
        simpa [resolveConfigGoogleChatPhase] using hc'
      exact heq ▸ hc
    · simpa [resolveConfigGoogleChatPhase] using hst
  | some ch =>
    obtain ⟨cad, googlechat⟩ := ch
    cases googlechat with
    | none =>
      constructor
      · intro c' hc'
        have heq : (⟨ad, models, some ⟨cad, none⟩, secrets, extra⟩ : OpenClawConfig) = c' := by
          simpa [resolveConfigGoogleChatPhase] using hc'
        exact heq ▸ hc
      · simpa [resolveConfigGoogleChatPhase] using hst
    | some gc =>
      by_cases ht : truthy gc = true
      · rw [OkCfg_iff] at hc
        have hgc : OkV S gc := fun a ha =>
          hc.2.2.1 _ rfl a ((channelsAddrs_some_mem cad gc a).mpr (Or.inr ha))
        have htop := gcsa_OkS gc "channels.googlechat" ctx ext st ws hext hst hgc
        cases hq : (resolveGoogleChatServiceAccount gc "channels.googlechat" ctx ext st ws).1 with
        | error e =>
          constructor
          · intro c' hc'
            simp [resolveConfigGoogleChatPhase, ht, hq] at hc'
          · simp only [resolveConfigGoogleChatPhase, ht, if_true, hq]
            exact htop.2
        | ok gc1 =>
          have hgc1 : OkV S gc1 := htop.1 gc1 hq
          cases ha : getField gc1 "accounts" with
          | some w =>
            cases w with
            | vobj aAddr accs =>
              have haccs : OkFields S accs := by
                intro a hma
                exact hgc1 a (getField_sub_addrs gc1 "accounts" (.vobj aAddr accs) ha a
                  (by simp only [valAddrs, List.mem_cons]; exact Or.inr hma))
              have haA : S aAddr := hgc1 aAddr (getField_sub_addrs gc1 "accounts"
                (.vobj aAddr accs) ha aAddr (by simp [valAddrs]))
              have hfold := gcAccounts_OkS accs ctx ext hext
                (resolveGoogleChatServiceAccount gc "channels.googlechat" ctx ext st ws).2.1
                (resolveGoogleChatServiceAccount gc "channels.googlechat" ctx ext st ws).2.2
                htop.2 haccs
              cases hr : (resolveGoogleChatAccounts accs ctx ext
                  (resolveGoogleChatServiceAccount gc "channels.googlechat" ctx ext st ws).2.1
                  (resolveGoogleChatServiceAccount gc "channels.googlechat" ctx ext st
                    ws).2.2).1 with
              | error e =>
                constructor
                · intro c' hc'
                  simp [resolveConfigGoogleChatPhase, ht, hq, ha, hr] at hc'
                · simp only [resolveConfigGoogleChatPhase, ht, if_true, hq, ha, hr]
                  exact hfold.2
              | ok accs' =>
                constructor
                · intro c' hc'
                  have heq : (⟨ad, models, some ⟨cad, some (setField gc1 "accounts"
                      (.vobj aAddr accs'))⟩, secrets, extra⟩ : OpenClawConfig) = c' := by
                    simpa [resolveConfigGoogleChatPhase, ht, hq, ha, hr] using hc'
                  refine heq ▸ ?_
                  rw [OkCfg_iff]
                  refine ⟨hc.1, hc.2.1, ?_, hc.2.2.2.1, hc.2.2.2.2⟩
                  intro ch hch a hma
                  obtain rfl := Option.some.inj hch
                  rcases (channelsAddrs_some_mem cad _ a).mp hma with rfl | hma
                  · exact hc.2.2.1 _ rfl a ((channelsAddrs_some_mem a gc a).mpr (Or.inl rfl))
                  · refine setField_OkV gc1 "accounts" (.vobj aAddr accs') hgc1 ?_ a hma
                    intro b hb
                    simp only [valAddrs, List.mem_cons] at hb
                    rcases hb with rfl | hb
                    · exact haA
                    · exact hfold.1 accs' hr b hb
                · simp only [resolveConfigGoogleChatPhase, ht, if_true, hq, ha, hr]
                  exact hfold.2
            | vnull =>
              constructor
              · intro c' hc'
                have heq : (⟨ad, models, some ⟨cad, some gc1⟩, secrets, extra⟩ :
                    OpenClawConfig) = c' := by
                  simpa [resolveConfigGoogleChatPhase, ht, hq, ha] using hc'
                refine heq ▸ ?_
                rw [OkCfg_iff]
                refine ⟨hc.1, hc.2.1, ?_, hc.2.2.2.1, hc.2.2.2.2⟩
                intro ch hch a hma
                obtain rfl := Option.some.inj hch
                rcases (channelsAddrs_some_mem cad gc1 a).mp hma with rfl | hma
                · exact hc.2.2.1 _ rfl a ((channelsAddrs_some_mem a gc a).mpr (Or.inl rfl))
                · exact hgc1 a hma
              · simp only [resolveConfigGoogleChatPhase, ht, if_true, hq, ha]
                exact htop.2
            | vbool b =>
              constructor
              · intro c' hc'
                have heq : (⟨ad, models, some ⟨cad, some gc1⟩, secrets, extra⟩ :
                    OpenClawConfig) = c' := by
                  simpa [resolveConfigGoogleChatPhase, ht, hq, ha] using hc'
                refine heq ▸ ?_
                rw [OkCfg_iff]
                refine ⟨hc.1, hc.2.1, ?_, hc.2.2.2.1, hc.2.2.2.2⟩
                intro ch hch a hma
                obtain rfl := Option.some.inj hch
                rcases (channelsAddrs_some_mem cad gc1 a).mp hma with rfl | hma
                · exact hc.2.2.1 _ rfl a ((channelsAddrs_some_mem a gc a).mpr (Or.inl rfl))
                · exact hgc1 a hma
              · simp only [resolveConfigGoogleChatPhase, ht, if_true, hq, ha]
                exact htop.2
            | vnum m =>
              constructor
              · intro c' hc'
                have heq : (⟨ad, models, some ⟨cad, some gc1⟩, secrets, extra⟩ :
                    OpenClawConfig) = c' := by
                  simpa [resolveConfigGoogleChatPhase, ht, hq, ha] using hc'
                refine heq ▸ ?_
                rw [OkCfg_iff]
                refine ⟨hc.1, hc.2.1, ?_, hc.2.2.2.1, hc.2.2.2.2⟩
                intro ch hch a hma
                obtain rfl := Option.some.inj hch
                rcases (channelsAddrs_some_mem cad gc1 a).mp hma with rfl | hma
                · exact hc.2.2.1 _ rfl a ((channelsAddrs_some_mem a gc a).mpr (Or.inl rfl))
                · exact hgc1 a hma
              · simp only [resolveConfigGoogleChatPhase, ht, if_true, hq, ha]
                exact htop.2
            | vstr s =>
              constructor
              · intro c' hc'
                have heq : (⟨ad, models, some ⟨cad, some gc1⟩, secrets, extra⟩ :
                    OpenClawConfig) = c' := by
                  simpa [resolveConfigGoogleChatPhase, ht, hq, ha] using hc'
                refine heq ▸ ?_
                rw [OkCfg_iff]
                refine ⟨hc.1, hc.2.1, ?_, hc.2.2.2.1, hc.2.2.2.2⟩
                intro ch hch a hma
                obtain rfl := Option.some.inj hch
                rcases (channelsAddrs_some_mem cad gc1 a).mp hma with rfl | hma
                · exact hc.2.2.1 _ rfl a ((channelsAddrs_some_mem a gc a).mpr (Or.inl rfl))
                · exact hgc1 a hma
              · simp only [resolveConfigGoogleChatPhase, ht, if_true, hq, ha]
                exact htop.2
            | varr aAddr es =>
              constructor
              · intro c' hc'
                have heq : (⟨ad, models, some ⟨cad, some gc1⟩, secrets, extra⟩ :
                    OpenClawConfig) = c' := by
                  simpa [resolveConfigGoogleChatPhase, ht, hq, ha] using hc'
                refine heq ▸ ?_
                rw [OkCfg_iff]
                refine ⟨hc.1, hc.2.1, ?_, hc.2.2.2.1, hc.2.2.2.2⟩
                intro ch hch a hma
                obtain rfl := Option.some.inj hch
                rcases (channelsAddrs_some_mem cad gc1 a).mp hma with rfl | hma
                · exact hc.2.2.1 _ rfl a ((channelsAddrs_some_mem a gc a).mpr (Or.inl rfl))
                · exact hgc1 a hma
              · simp only [resolveConfigGoogleChatPhase, ht, if_true, hq, ha]
                exact htop.2
          | none =>
            constructor
            · intro c' hc'
              have heq : (⟨ad, models, some ⟨cad, some gc1⟩, secrets, extra⟩ :
                  OpenClawConfig) = c' := by
                simpa [resolveConfigGoogleChatPhase, ht, hq, ha] using hc'
              refine heq ▸ ?_
              rw [OkCfg_iff]
              refine ⟨hc.1, hc.2.1, ?_, hc.2.2.2.1, hc.2.2.2.2⟩
              intro ch hch a hma
              obtain rfl := Option.some.inj hch
              rcases (channelsAddrs_some_mem cad gc1 a).mp hma with rfl | hma
              · exact hc.2.2.1 _ rfl a ((channelsAddrs_some_mem a gc a).mpr (Or.inl rfl))
              · exact hgc1 a hma
            · simp only [resolveConfigGoogleChatPhase, ht, if_true, hq, ha]
              exact htop.2
      · constructor
        · intro c' hc'
          have heq : (⟨ad, models, some ⟨cad, some gc⟩, secrets, extra⟩ :
              OpenClawConfig) = c' := by
            simpa [resolveConfigGoogleChatPhase, ht] using hc'
          exact heq ▸ hc
        · simpa [resolveConfigGoogleChatPhase, ht] using hst

/-- Address tracking through the whole configuration walk: starting from an
allocation counter all of whose future addresses satisfy `S`, with an
external decrypt facility and cache slot producing only `S`-payloads, every
successfully resolved configuration has only `S`-addresses. -/
theorem resolveConfigSecretRefs_OkS {S : Nat → Prop} (config : OpenClawConfig)
    (ctx : ResolverContext) (ext : ExtWorld) (st : RState) (ws : List SecretResolverWarning)
    (hn : ∀ a, st.nextAddr ≤ a → S a) (hext : OkExt S ext) (hst : OkSt S st) :
    ∀ c', (resolveConfigSecretRefs config ctx ext st ws).1 = .ok c' → OkCfg S c' := by
  intro c' hc'
  have hc0 : OkCfg S (cloneConfig config st.nextAddr).1 := fun a ha =>
    hn a (cloneConfig_addrs_bound config st.nextAddr a ha).1
  have hst0 : OkSt S { st with nextAddr := (cloneConfig config st.nextAddr).2 } :=
    fun r hr => hst r hr
  have hprov := provPhase_OkS (cloneConfig config st.nextAddr).1 ctx ext
    { st with nextAddr := (cloneConfig config st.nextAddr).2 } hext hst0 hc0
  cases hq : (resolveConfigProvidersPhase (cloneConfig config st.nextAddr).1 ctx ext
      { st with nextAddr := (cloneConfig config st.nextAddr).2 }).1 with
  | error e => simp [resolveConfigSecretRefs, hq] at hc'
  | ok c1 =>
    have hgc := gcPhase_OkS c1 ctx ext
      (resolveConfigProvidersPhase (cloneConfig config st.nextAddr).1 ctx ext
        { st with nextAddr := (cloneConfig config st.nextAddr).2 }).2 ws hext hprov.2
      (hprov.1 c1 hq)
    simp only [resolveConfigSecretRefs, hq] at hc'
    exact hgc.1 c' hc'

/-- The `apiKey` value of a named provider entry, if any. -/
def providerApiKey (c : OpenClawConfig) (pid : String) : Option AVal :=
  match c.models with
  | some ms =>
    match ms.providers with
    | some nv =>
      match lookupField nv.entries pid with
      | some p => getField p "apiKey"
      | none => none
    | none => none
  | none => none

/-- The env secret-reference object of the end-to-end example. -/
def acmeRefObj : AVal := .vobj 4 [("source", .vstr "env"), ("id", .vstr "ACME_KEY")]

/-- The end-to-end example configuration
`(models.providers.acme.apiKey = (source env, id ACME_KEY))`. -/
def acmeConfig : OpenClawConfig :=
  ⟨0, some ⟨1, some ⟨2, [("acme", .vobj 3 [("apiKey", acmeRefObj)])]⟩⟩, none, none, []⟩

/-- Prepare parameters of the end-to-end example: explicit environment,
explicit single agent directory, injected empty store loader. -/
def acmeParams : PrepareParams :=
  ⟨acmeConfig, some sampleEnv, some ["agent"], some (fun _ => emptyStore)⟩

/-- Claim C6: `prepare` does not mutate the caller's configuration (the
embedding is state-passing: the input value is read but never rebuilt); the
returned snapshot's `sourceConfig` is deep-equal to the input with every
secret-reference placeholder still in place; and the resolved `config` shares
no mutable sub-object (no address) with the input, given that the allocation
counter starts ahead of the input's addresses and that decrypted payloads are
fresh objects (address-disjoint from the input, as JSON parsing guarantees).
In particular, in the end-to-end example the resolved config carries the raw
string `"secret123"` at `models.providers.acme.apiKey` while `sourceConfig`
still carries a value deep-equal to the original reference object. -/
theorem C6_prepare_no_aliasing (params : PrepareParams) (ext : ExtWorld) (n0 : Nat)
    (hin : ∀ a ∈ configAddrs params.config, a < n0)
    (hext : ∀ path t v, ext.sopsDecrypt path t = .ok v →
      ∀ a ∈ valAddrs v, a ∉ configAddrs params.config) :
    (∀ snap, (prepareSecretsRuntimeSnapshot params ext n0).1 = .ok snap →
      stripConfig snap.sourceConfig = stripConfig params.config ∧
      ∀ a ∈ configAddrs snap.config, a ∉ configAddrs params.config) ∧
    ((prepareSecretsRuntimeSnapshot acmeParams sampleExt 100).1.toOption.map
        (fun s => providerApiKey s.config "acme") = some (some (.vstr "secret123")) ∧
      (prepareSecretsRuntimeSnapshot acmeParams sampleExt 100).1.toOption.map
        (fun s => (providerApiKey s.sourceConfig "acme").map stripVal)
        = some (some (.vobj 0 [("source", .vstr "env"), ("id", .vstr "ACME_KEY")]))) := by
  constructor
  · intro snap hsnap
    have hOkExt : OkExt (fun a => a ∉ configAddrs params.config) ext :=
      fun path t v hv a ha => hext path t v hv a ha
    simp only [prepareSecretsRuntimeSnapshot] at hsnap
    split at hsnap
    next e heq => simp at hsnap
    next resolvedConfig heq =>
      split at hsnap
      next e2 heq2 => simp at hsnap
      next entries heq2 =>
        simp only [Except.ok.injEq] at hsnap
        subst hsnap
        constructor
        · exact stripConfig_cloneConfig params.config _
        · intro a ha
          exact resolveConfigSecretRefs_OkS params.config
            ⟨params.config, params.env.getD ext.processEnv⟩ ext ⟨none, 0, n0⟩ []
            (fun b hb hmem => absurd (hin b hmem) (Nat.not_lt.mpr hb))
            hOkExt (fun r hr => Option.noConfusion hr) resolvedConfig heq a ha
  · constructor <;> rfl

/-- Witness for C6: in the end-to-end example (counter seeded at 100, all
input addresses below 4), the prepare call succeeds, its `sourceConfig` is
deep-equal to the input, and no address of the resolved config occurs among
the input's addresses. -/
theorem C6_prepare_no_aliasing_witness :
    (∀ a ∈ configAddrs acmeConfig, a < 100) ∧
    (prepareSecretsRuntimeSnapshot acmeParams sampleExt 100).1.toOption.map
        (fun s => stripConfig s.sourceConfig) = some (stripConfig acmeConfig) ∧
    (prepareSecretsRuntimeSnapshot acmeParams sampleExt 100).1.toOption.map
        (fun s => (configAddrs s.config).filter (fun a => decide (a ∈ configAddrs acmeConfig)))
      = some [] := by
  have h := C6_prepare_no_aliasing acmeParams sampleExt 100 (by decide)
    (by intro path t v hv a ha; simp [sampleExt] at hv)
  rcases hp : (prepareSecretsRuntimeSnapshot acmeParams sampleExt 100).1 with e | snap
  · exfalso
    have h2 := h.2.1
    rw [hp] at h2
    simp [Except.toOption] at h2
  · have hsnap := h.1 snap hp
    refine ⟨by decide, ?_, ?_⟩
    · simp [Except.toOption, hsnap.1, acmeParams]
    · have hfil : (configAddrs snap.config).filter
          (fun a => decide (a ∈ configAddrs acmeConfig)) = [] := by
        refine List.filter_eq_nil_iff.mpr ?_
        intro a ha
        simpa using hsnap.2 a ha
      simp [Except.toOption, hfil]
